import Mathlib

/-!
# Verification of the NBA stats incremental importer

Shallow embedding of the two pipeline scripts
`import_player_stats.py` and `import_team_stats.py`:
date parsing (`datetime.strptime` over the seven formats tried by
`parse_date`), season bucketing and routing, the existing-key readers,
the dedup reconciler, and the per-run store mutation (tab creation and
row appends), together with proofs of the specified properties.

Cell values read from / written to the destination spreadsheet are
modelled as strings; read ranges are modelled as exact column slices of
the stored grid.
-/

set_option autoImplicit false

namespace NbaImport

/-! ## Python string helpers -/

/-- The ASCII whitespace characters recognised by Python's `str.strip()`
and by the `\s` class used for whitespace in a `strptime` format. -/
def isPyWs (c : Char) : Bool :=
  c = ' ' || c = '\t' || c = '\n' || c = '\r' || c = Char.ofNat 11 || c = Char.ofNat 12

/-- Python `str.strip()` on a list of characters. -/
def pstripL (s : List Char) : List Char :=
  ((s.dropWhile isPyWs).reverse.dropWhile isPyWs).reverse

/-- Python `str.strip()`. -/
def pstrip (s : String) : String :=
  String.mk (pstripL s.data)

/-- ASCII lower-casing of one character.  `_strptime` compiles its format
regex with `re.IGNORECASE`, so literal letters in a format match either
case. -/
def lowerC (c : Char) : Char :=
  if 65 ≤ c.toNat && c.toNat ≤ 90 then Char.ofNat (c.toNat + 32) else c

/-- Numeric value of an ASCII digit. -/
def dval (c : Char) : Nat := c.toNat - 48

/-- `lo ≤ c ≤ hi` on ASCII codes. -/
def between (c : Char) (lo hi : Nat) : Bool :=
  lo ≤ c.toNat && c.toNat ≤ hi

/-! ## Datetime values

`PyDateTime` models the `datetime.datetime` values produced by
`parse_date`: a wall-clock time plus an optional fixed UTC offset in
seconds (`tz = none` models a naive datetime). -/

structure PyDateTime where
  year : Nat
  month : Nat
  day : Nat
  hour : Nat
  minute : Nat
  second : Nat
  tz : Option Int
deriving DecidableEq, Repr

/-- Leap year test used by `datetime` (proleptic Gregorian). -/
def isLeap (y : Nat) : Bool :=
  y % 4 = 0 && (y % 100 ≠ 0 || y % 400 = 0)

/-- Days in a month, as validated by the `datetime` constructor. -/
def daysInMonth (y m : Nat) : Nat :=
  if m = 2 then (if isLeap y then 29 else 28)
  else if m = 4 || m = 6 || m = 9 || m = 11 then 30 else 31

/-! ## `strptime`

A format string is modelled as a list of tokens: the directives that
occur in the seven formats tried by `parse_date`, plus literal
characters and the whitespace class (CPython replaces a run of
whitespace in the format by `\s+`).  Each directive parser mirrors the
regex fragment CPython's `_strptime.TimeRE` compiles for it, with the
leftmost-alternative (greedy) semantics of the compiled pattern. -/

inductive Tok where
  | lit (c : Char)
  | ws
  | dY | dm | dd | dH | dI | dM | dS | dz | dp
deriving DecidableEq, Repr

/-- Parser state: remaining input and the fields collected so far,
initialised to the `time.struct_time` defaults used by `_strptime`
(year 1900, month 1, day 1, midnight). -/
structure PState where
  rest : List Char
  year : Nat
  month : Nat
  day : Nat
  hour : Nat
  minute : Nat
  second : Nat
  ampm : Option Bool
  tz : Option Int
deriving DecidableEq, Repr

def initState (s : List Char) : PState :=
  ⟨s, 1900, 1, 1, 0, 0, 0, none, none⟩

/-- `%Y`: regex `\d\d\d\d` (exactly four digits). -/
def parseY4 : List Char → Option (Nat × List Char)
  | a :: b :: c :: d :: r =>
    if a.isDigit && b.isDigit && c.isDigit && d.isDigit then
      some (dval a * 1000 + dval b * 100 + dval c * 10 + dval d, r)
    else none
  | _ => none

/-- `%m` (also `%I`): regex `(1[0-2]|0[1-9]|[1-9])`. -/
def parseMon : List Char → Option (Nat × List Char)
  | a :: b :: r =>
    if a = '1' && between b 48 50 then some (10 + dval b, r)
    else if a = '0' && between b 49 57 then some (dval b, r)
    else if between a 49 57 then some (dval a, b :: r)
    else none
  | [a] => if between a 49 57 then some (dval a, []) else none
  | [] => none

/-- `%d`: regex `(3[01]|[12]\d|0[1-9]|[1-9])`. -/
def parseDay : List Char → Option (Nat × List Char)
  | a :: b :: r =>
    if a = '3' && (b = '0' || b = '1') then some (30 + dval b, r)
    else if (a = '1' || a = '2') && b.isDigit then some (dval a * 10 + dval b, r)
    else if a = '0' && between b 49 57 then some (dval b, r)
    else if between a 49 57 then some (dval a, b :: r)
    else none
  | [a] => if between a 49 57 then some (dval a, []) else none
  | [] => none

/-- `%H`: regex `(2[0-3]|[0-1]\d|\d)`. -/
def parseH24 : List Char → Option (Nat × List Char)
  | a :: b :: r =>
    if a = '2' && between b 48 51 then some (20 + dval b, r)
    else if (a = '0' || a = '1') && b.isDigit then some (dval a * 10 + dval b, r)
    else if a.isDigit then some (dval a, b :: r)
    else none
  | [a] => if a.isDigit then some (dval a, []) else none
  | [] => none

/-- `%M`: regex `([0-5]\d|\d)`. -/
def parseMin : List Char → Option (Nat × List Char)
  | a :: b :: r =>
    if between a 48 53 && b.isDigit then some (dval a * 10 + dval b, r)
    else if a.isDigit then some (dval a, b :: r)
    else none
  | [a] => if a.isDigit then some (dval a, []) else none
  | [] => none

/-- `%S`: regex `(6[0-1]|[0-5]\d|\d)` (leap seconds are matched and then
rejected by the `datetime` constructor). -/
def parseSec : List Char → Option (Nat × List Char)
  | a :: b :: r =>
    if a = '6' && (b = '0' || b = '1') then some (60 + dval b, r)
    else if between a 48 53 && b.isDigit then some (dval a * 10 + dval b, r)
    else if a.isDigit then some (dval a, b :: r)
    else none
  | [a] => if a.isDigit then some (dval a, []) else none
  | [] => none

/-- `%p`: regex `(am|pm)` under `re.IGNORECASE`; `false` is AM, `true`
is PM. -/
def parseAmPm : List Char → Option (Bool × List Char)
  | a :: b :: r =>
    if lowerC a = 'a' && lowerC b = 'm' then some (false, r)
    else if lowerC a = 'p' && lowerC b = 'm' then some (true, r)
    else none
  | _ => none

/-- Optional fractional part of a `%z` offset: `(\.\d{1,6})?`, greedy.
The parsed microseconds are dropped (sub-second UTC offsets are not
modelled).  Returns the remaining input, unchanged if the group is
absent. -/
def parseZFrac (l : List Char) : List Char :=
  match l with
  | '.' :: r =>
    let ds := (r.takeWhile Char.isDigit).take 6
    if ds.isEmpty then l else r.drop ds.length
  | _ => l

/-- Optional seconds of a `%z` offset: `(:?\d\d(\.\d{1,6})?)?`, greedy.
Returns the seconds value (0 if absent) and the remaining input. -/
def parseZSec (l : List Char) : Nat × List Char :=
  match l with
  | ':' :: s1 :: s2 :: r =>
    if s1.isDigit && s2.isDigit then (dval s1 * 10 + dval s2, parseZFrac r) else (0, l)
  | s1 :: s2 :: r =>
    if s1.isDigit && s2.isDigit then (dval s1 * 10 + dval s2, parseZFrac r) else (0, l)
  | _ => (0, l)

/-- `%z`: regex `([+-]\d\d:?\d\d(:?\d\d(\.\d{1,6})?)?|(?-i:Z))`.
Returns the offset in seconds.  `Z` (upper case only: the alternative is
compiled case-sensitively) is UTC. -/
def parseZoff : List Char → Option (Int × List Char)
  | 'Z' :: r => some (0, r)
  | c :: r =>
    if c = '+' || c = '-' then
      match r with
      | h1 :: h2 :: r2 =>
        if h1.isDigit && h2.isDigit then
          let hh := dval h1 * 10 + dval h2
          let r3 := match r2 with
            | ':' :: m1 :: m2 :: r' =>
              if m1.isDigit && m2.isDigit then some (dval m1 * 10 + dval m2, r') else none
            | m1 :: m2 :: r' =>
              if m1.isDigit && m2.isDigit then some (dval m1 * 10 + dval m2, r') else none
            | _ => none
          match r3 with
          | none => none
          | some (mm, r4) =>
            let p := parseZSec r4
            let total : Int := (hh * 3600 + mm * 60 + p.1 : Nat)
            some (if c = '-' then -total else total, p.2)
        else none
      | _ => none
    else none
  | [] => none

/-- Run one token of the compiled format against the parser state. -/
def runTok (st : PState) : Tok → Option PState
  | .lit c =>
    match st.rest with
    | x :: xs => if lowerC x = lowerC c then some { st with rest := xs } else none
    | [] => none
  | .ws =>
    match st.rest with
    | x :: xs => if isPyWs x then some { st with rest := xs.dropWhile isPyWs } else none
    | [] => none
  | .dY => (parseY4 st.rest).map (fun p => { st with year := p.1, rest := p.2 })
  | .dm => (parseMon st.rest).map (fun p => { st with month := p.1, rest := p.2 })
  | .dd => (parseDay st.rest).map (fun p => { st with day := p.1, rest := p.2 })
  | .dH => (parseH24 st.rest).map (fun p => { st with hour := p.1, rest := p.2 })
  | .dI => (parseMon st.rest).map (fun p => { st with hour := p.1, rest := p.2 })
  | .dM => (parseMin st.rest).map (fun p => { st with minute := p.1, rest := p.2 })
  | .dS => (parseSec st.rest).map (fun p => { st with second := p.1, rest := p.2 })
  | .dz => (parseZoff st.rest).map (fun p => { st with tz := some p.1, rest := p.2 })
  | .dp => (parseAmPm st.rest).map (fun p => { st with ampm := some p.1, rest := p.2 })

def runToks : List Tok → PState → Option PState
  | [], st => some st
  | t :: ts, st =>
    match runTok st t with
    | some st' => runToks ts st'
    | none => none

/-- Build the `datetime` from the collected fields, performing the
validation the `datetime` constructor does: year ≥ 1 (`MINYEAR`), day
within the month, seconds ≤ 59, and a UTC offset strictly between
±24 hours (`timezone` rejects anything else).  `%I`/`%p` are combined
into a 24-hour value the way `_strptime` does. -/
def mkDateTime (st : PState) : Option PyDateTime :=
  let hour := match st.ampm with
    | none => st.hour
    | some false => if st.hour = 12 then 0 else st.hour
    | some true => if st.hour = 12 then 12 else st.hour + 12
  let tzOk : Bool := match st.tz with
    | none => true
    | some o => decide (-86400 < o) && decide (o < 86400)
  if 1 ≤ st.year && st.second ≤ 59 && st.day ≤ daysInMonth st.year st.month && tzOk then
    some ⟨st.year, st.month, st.day, hour, st.minute, st.second, st.tz⟩
  else none

/-- `datetime.strptime(s, fmt)` for a compiled format: the regex must
consume the whole input (`_strptime` raises if characters remain). -/
def strptime (toks : List Tok) (s : List Char) : Option PyDateTime :=
  match runToks toks (initState s) with
  | none => none
  | some st => if st.rest = [] then mkDateTime st else none

/-! ### The seven formats tried by `parse_date`, in order -/

/-- `%Y-%m-%d` -/
def dateToks : List Tok := [.dY, .lit '-', .dm, .lit '-', .dd]

/-- `%H:%M:%S` -/
def timeToks : List Tok := [.dH, .lit ':', .dM, .lit ':', .dS]

/-- `"%Y-%m-%dT%H:%M:%S"` -/
def fmt1 : List Tok := dateToks ++ (.lit 'T' :: timeToks)

/-- `"%Y-%m-%d %H:%M:%S"` -/
def fmt2 : List Tok := dateToks ++ (.ws :: timeToks)

/-- `"%Y-%m-%dT%H:%M:%SZ"` (literal `Z`, no timezone directive) -/
def fmt3 : List Tok := fmt1 ++ [.lit 'Z']

/-- `"%Y-%m-%d %H:%M:%S%z"` -/
def fmt4 : List Tok := fmt2 ++ [.dz]

/-- `"%Y-%m-%dT%H:%M:%S%z"` -/
def fmt5 : List Tok := fmt1 ++ [.dz]

/-- `"%m/%d/%Y %I:%M %p"` -/
def fmt6 : List Tok := [.dm, .lit '/', .dd, .lit '/', .dY, .ws, .dI, .lit ':', .dM, .ws, .dp]

/-- `"%Y-%m-%d"` -/
def fmt7 : List Tok := dateToks

def FORMATS : List (List Tok) := [fmt1, fmt2, fmt3, fmt4, fmt5, fmt6, fmt7]

/-- Try the formats in order, returning the first successful parse. -/
def tryFormatsGo : List (List Tok) → List Char → Option PyDateTime
  | [], _ => none
  | f :: fs, s =>
    match strptime f s with
    | some dt => some dt
    | none => tryFormatsGo fs s

def tryFormats (s : List Char) : Option PyDateTime :=
  tryFormatsGo FORMATS s

/-- The fixed UTC-5 offset `timezone(timedelta(hours=-5))`, in seconds. -/
def ET_OFFSET : Int := -18000

/-- `parse_date` (identical in `import_player_stats.py` and
`import_team_stats.py`): empty input is `None`; otherwise the stripped
input is tried against the format list and the first successful parse is
returned, with the fixed UTC-5 offset attached when the parsed value is
naive. -/
def parse_date (s : String) : Option PyDateTime :=
  if s = "" then none
  else
    match tryFormats (pstripL s.data) with
    | some dt => some (if dt.tz = none then { dt with tz := some ET_OFFSET } else dt)
    | none => none

/-! ## Season helpers -/

/-- `season_end_year` (`import_player_stats.py`): Jul–Dec map to
`year+1`, Jan–Jun to `year`. -/
def season_end_year (dt : PyDateTime) : Nat :=
  if 7 ≤ dt.month then dt.year + 1 else dt.year

/-- `ALLOWED_SEASON_END_YEARS` (`import_player_stats.py`). -/
def ALLOWED_SEASON_END_YEARS : List Nat := [2022, 2023, 2024, 2025, 2026]

/-- `is_current_season` (`import_team_stats.py`). -/
def is_current_season (dt : PyDateTime) : Bool :=
  if dt.year = 2025 && 7 ≤ dt.month then true
  else if dt.year = 2026 && dt.month ≤ 6 then true
  else false

/-! ## Instants

Comparison of timezone-aware `datetime` values compares the underlying
instants.  `daysFromCivil` is the standard proleptic-Gregorian day
number (equivalent to Python's `toordinal` up to a constant). -/

def daysFromCivil (y m d : Int) : Int :=
  let y2 := if m ≤ 2 then y - 1 else y
  let era := (if 0 ≤ y2 then y2 else y2 - 399) / 400
  let yoe := y2 - era * 400
  let mp := (m + 9) % 12
  let doy := (153 * mp + 2) / 5 + d - 1
  let doe := yoe * 365 + yoe / 4 - yoe / 100 + doy
  era * 146097 + doe - 719468

/-- The instant of an aware datetime, in seconds (UTC). -/
def toInstant (dt : PyDateTime) : Int :=
  daysFromCivil dt.year dt.month dt.day * 86400
    + dt.hour * 3600 + dt.minute * 60 + dt.second - dt.tz.getD 0

/-! ## Rows and output rows

A CSV row (as produced by `csv.DictReader`) is a mapping from header
names to string values, modelled as an association list; `rget` is
`row.get(h, "")`. -/

abbrev Row := List (String × String)

def rget : Row → String → String
  | [], _ => ""
  | (k, v) :: rest, h => if k = h then v else rget rest h

/-- `[row.get(h, "") for h in EXPECTED_HEADERS]`: the appended row in
expected-header order, absent columns mapped to `""`. -/
def outputRow (headers : List String) (r : Row) : List String :=
  headers.map (fun h => rget r h)

/-- `EXPECTED_HEADERS` of `import_player_stats.py` (35 columns;
`personId` is column C, `gameId` column D). -/
def PLAYER_EXPECTED_HEADERS : List String :=
  ["firstName", "lastName", "personId", "gameId", "gameDateTimeEst",
   "playerteamCity", "playerteamName", "opponentteamCity", "opponentteamName",
   "gameType", "gameLabel", "gameSubLabel", "seriesGameNumber", "win", "home",
   "numMinutes", "points", "assists", "blocks", "steals",
   "fieldGoalsAttempted", "fieldGoalsMade", "fieldGoalsPercentage",
   "threePointersAttempted", "threePointersMade", "threePointersPercentage",
   "freeThrowsAttempted", "freeThrowsMade", "freeThrowsPercentage",
   "reboundsDefensive", "reboundsOffensive", "reboundsTotal",
   "foulsPersonal", "turnovers", "plusMinusPoints"]

/-- `EXPECTED_HEADERS` of `import_team_stats.py` (49 columns; `gameId`
is column A, `teamId` column E). -/
def TEAM_EXPECTED_HEADERS : List String :=
  ["gameId", "gameDateTimeEst", "teamCity", "teamName", "teamId",
   "opponentTeamCity", "opponentTeamName", "opponentTeamId",
   "home", "win", "teamScore", "opponentScore",
   "assists", "blocks", "steals",
   "fieldGoalsAttempted", "fieldGoalsMade", "fieldGoalsPercentage",
   "threePointersAttempted", "threePointersMade", "threePointersPercentage",
   "freeThrowsAttempted", "freeThrowsMade", "freeThrowsPercentage",
   "reboundsDefensive", "reboundsOffensive", "reboundsTotal",
   "foulsPersonal", "turnovers", "plusMinusPoints",
   "numMinutes",
   "q1Points", "q2Points", "q3Points", "q4Points",
   "benchPoints", "biggestLead", "biggestScoringRun", "leadChanges",
   "pointsFastBreak", "pointsFromTurnovers", "pointsInThePaint",
   "pointsSecondChance", "timesTied", "timeoutsRemaining",
   "seasonWins", "seasonLosses", "coachId"]

def TARGET_TAB : String := "2026"

/-! ## Existing-key sets

The destination store is modelled per spreadsheet as an association
list from tab title to grid of cells; a range read returns the exact
column slice of each stored row. -/

abbrev Grid := List (List String)
abbrev Store := List (String × Grid)

/-- The `C:D` slice served by the read in the player pipeline's
`get_existing_keys`. -/
def readCD (g : Grid) : Grid :=
  g.map (fun r => (r.drop 2).take 2)

/-- The `A:A` slice read by the team pipeline. -/
def readColA (g : Grid) : Grid :=
  g.map (fun r => r.take 1)

/-- The `E:E` slice read by the team pipeline. -/
def readColE (g : Grid) : Grid :=
  g.map (fun r => (r.drop 4).take 1)

/-- One row of the player key loop: `if len(row) >= 2:
keys.add(f"{row[0]}|{row[1]}")`. -/
def keyOfCD (row : List String) : Option String :=
  if 2 ≤ row.length then some (row.getD 0 "" ++ "|" ++ row.getD 1 "") else none

/-- `get_existing_keys` of `import_player_stats.py`, as a function of
the values returned by the `C:D` read: skip the header row, then keep
`"<personId>|<gameId>"` for every row with at least two cells. -/
def playerKeysOf (values : Grid) : List String :=
  (values.drop 1).filterMap keyOfCD

/-- `row[i][0] if row[i] else ""` -/
def headCell : List String → String
  | [] => ""
  | x :: _ => x

/-- The loop of the team pipeline's `get_existing_keys`:
`for i in range(1, min(len(rows_a), len(rows_e)))`, walking the two
column reads in lockstep (the arguments are the reads with their header
entry dropped). -/
def teamKeysLoop : Grid → Grid → List String
  | ra :: as_, re :: es =>
    if headCell ra ≠ "" && headCell re ≠ "" then
      (headCell re ++ "|" ++ headCell ra) :: teamKeysLoop as_ es
    else teamKeysLoop as_ es
  | _, _ => []

/-- `get_existing_keys` of `import_team_stats.py`, as a function of the
values returned by the `A:A` and `E:E` reads: keys are
`"<teamId>|<gameId>"`, rows with either cell empty or missing are
skipped. -/
def teamKeysOf (rowsA rowsE : Grid) : List String :=
  teamKeysLoop (rowsA.drop 1) (rowsE.drop 1)

/-! ### Failure behaviour of the remote operations (§7 of the spec)

`get_existing_keys` wraps its read in `try/except Exception` and
returns the empty set on any failure; `ensure_tab_exists` performs its
metadata read unguarded, so a failure there propagates and kills the
run.  The read outcome is passed in as an `Except`. -/

inductive ApiError where
  | tabNotFound | authError | networkError | quotaError
deriving DecidableEq, Repr

/-- Player `get_existing_keys` with its failure channel: any error from
the read — tab missing, auth, network or quota — hits the bare
`except Exception` and yields the empty key set; the run continues. -/
def get_existing_keysE (readResult : Except ApiError Grid) : Except ApiError (List String) :=
  match readResult with
  | .error _ => .ok []
  | .ok values => .ok (playerKeysOf values)

/-- `ensure_tab_exists` with its failure channel: the
`spreadsheets().get` metadata read is not guarded, so its error
propagates (fatal). -/
def ensure_tab_existsE (metaResult : Except ApiError (List String)) (st : Store)
    (tab : String) (headers : List String) : Except ApiError Store :=
  match metaResult with
  | .error e => .error e
  | .ok titles => .ok (if tab ∈ titles then st else st ++ [(tab, [headers])])

/-! ## Store operations -/

def tabGrid : Store → String → Option Grid
  | [], _ => none
  | (t, g) :: rest, tab => if t = tab then some g else tabGrid rest tab

def gridAt (st : Store) (tab : String) : Grid :=
  (tabGrid st tab).getD []

def hasTab (st : Store) (tab : String) : Bool :=
  (tabGrid st tab).isSome

/-- `ensure_tab_exists`: if the title is absent, create the tab and
write the header row into it. -/
def ensureTab (st : Store) (tab : String) (headers : List String) : Store :=
  if hasTab st tab then st else st ++ [(tab, [headers])]

def appendToGrid : Store → String → Grid → Store
  | [], _, _ => []
  | (t, g) :: rest, tab, rows =>
    if t = tab then (t, g ++ rows) :: rest else (t, g) :: appendToGrid rest tab rows

/-- `append_rows`: no-op on an empty batch (`if not rows: return`),
otherwise a single bulk append at the end of the tab. -/
def append_rows (st : Store) (tab : String) (rows : Grid) : Store :=
  if rows = [] then st else appendToGrid st tab rows

/-! ## Dedup reconciler

The per-tab loop of both `main` functions: walk the candidates in
order, skip a row whose composite key is already in the set, otherwise
emit its output row and add its key to the set. -/

def playerKey (r : Row) : String :=
  pstrip (rget r "personId") ++ "|" ++ pstrip (rget r "gameId")

def teamKey (r : Row) : String :=
  pstrip (rget r "teamId") ++ "|" ++ pstrip (rget r "gameId")

def dedupRows (key : Row → String) (out : Row → List String) :
    List String → List Row → Grid × List String
  | existing, [] => ([], existing)
  | existing, r :: rs =>
    if key r ∈ existing then dedupRows key out existing rs
    else
      let p := dedupRows key out (key r :: existing) rs
      (out r :: p.1, p.2)

/-- The accepted candidates themselves (specification-side companion of
`dedupRows`, same recursion). -/
def acceptedList (key : Row → String) : List String → List Row → List Row
  | _, [] => []
  | existing, r :: rs =>
    if key r ∈ existing then acceptedList key existing rs
    else r :: acceptedList key (key r :: existing) rs

/-- Acceptance decision per candidate position. -/
def acceptedFlags (key : Row → String) : List String → List Row → List Bool
  | _, [] => []
  | existing, r :: rs =>
    if key r ∈ existing then false :: acceptedFlags key existing rs
    else true :: acceptedFlags key (key r :: existing) rs

/-! ## The player pipeline (`import_player_stats.py`, `main`) -/

/-- The row filter of step 3: strip the `gameDateTimeEst` field, parse
it, drop the row if unparseable or before the cutoff.  The cutoff is
the aware instant `now(UTC-5) - lookback`, passed in as a parameter. -/
def keepRecent (cutoff : Int) (r : Row) : Bool :=
  match parse_date (pstrip (rget r "gameDateTimeEst")) with
  | none => false
  | some dt => if toInstant dt < cutoff then false else true

/-- Routing of one retained row: its season-end year must be in the
allow-list, and the target tab is `players-<year>`. -/
def playerTabFor (dt : PyDateTime) : Option String :=
  if season_end_year dt ∈ ALLOWED_SEASON_END_YEARS then
    some ("players-" ++ toString (season_end_year dt))
  else none

/-- Insert a row at the end of its tab's bucket, preserving the
insertion order of a Python dict. -/
def assocAppend : List (String × List Row) → String → Row → List (String × List Row)
  | [], k, r => [(k, [r])]
  | (k', rs) :: rest, k, r =>
    if k' = k then (k', rs ++ [r]) :: rest else (k', rs) :: assocAppend rest k r

/-- One step of the `by_tab` grouping loop of the player `main`:
re-parse the date, drop the row if its bucket is outside the
allow-list, else append it to its tab's bucket. -/
def groupStep (acc : List (String × List Row)) (r : Row) : List (String × List Row) :=
  match parse_date (rget r "gameDateTimeEst") with
  | none => acc
  | some dt =>
    match playerTabFor dt with
    | some tab => assocAppend acc tab r
    | none => acc

def groupPlayer (recent : List Row) : List (String × List Row) :=
  recent.foldl groupStep []

/-- Per-tab processing of the player `main`: ensure the tab, read its
existing keys, dedup the candidates, append the survivors.  Returns the
new store and the number of rows appended. -/
def processPlayerTab (st : Store) (tab : String) (rows : List Row) : Store × Nat :=
  let st1 := ensureTab st tab PLAYER_EXPECTED_HEADERS
  let existing := playerKeysOf (readCD (gridAt st1 tab))
  let new := (dedupRows playerKey (outputRow PLAYER_EXPECTED_HEADERS) existing rows).1
  (append_rows st1 tab new, new.length)

def runPlayerStep (acc : Store × Nat) (p : String × List Row) : Store × Nat :=
  let q := processPlayerTab acc.1 p.1 p.2
  (q.1, acc.2 + q.2)

/-- `main` of `import_player_stats.py` as a function of the cutoff
instant, the source rows and the destination store.  Returns the final
store and the total number of rows appended. -/
def runPlayer (cutoff : Int) (src : List Row) (st : Store) : Store × Nat :=
  let recent := src.filter (keepRecent cutoff)
  if recent = [] then (st, 0)
  else (groupPlayer recent).foldl runPlayerStep (st, 0)

/-! ## The team pipeline (`import_team_stats.py`, `main`) -/

/-- The team row filter additionally requires `is_current_season`. -/
def keepRecentTeam (cutoff : Int) (r : Row) : Bool :=
  match parse_date (pstrip (rget r "gameDateTimeEst")) with
  | none => false
  | some dt => if toInstant dt < cutoff then false else is_current_season dt

/-- The tab processing of the team `main`: ensure the `"2026"` tab, read
its existing keys from columns A and E, dedup the candidates, append the
survivors. -/
def processTeamTab (st : Store) (rows : List Row) : Store × Nat :=
  let st1 := ensureTab st TARGET_TAB TEAM_EXPECTED_HEADERS
  let g := gridAt st1 TARGET_TAB
  let existing := teamKeysOf (readColA g) (readColE g)
  let new := (dedupRows teamKey (outputRow TEAM_EXPECTED_HEADERS) existing rows).1
  (append_rows st1 TARGET_TAB new, new.length)

/-- `main` of `import_team_stats.py`: single fixed tab `"2026"`. -/
def runTeam (cutoff : Int) (src : List Row) (st : Store) : Store × Nat :=
  let recent := src.filter (keepRecentTeam cutoff)
  if recent = [] then (st, 0)
  else processTeamTab st recent

/-- The stored-grid invariant assumed of the destination store: a tab
that exists is never completely empty (the writer always seeds a header
row on creation). -/
def goodStore (st : Store) : Prop :=
  ∀ tab g, tabGrid st tab = some g → g ≠ []

/-- Lexicographic order on calendar dates, used to state "the date
falls within a window" at day granularity. -/
def dateTripleLe (y1 m1 d1 y2 m2 d2 : Nat) : Prop :=
  y1 < y2 ∨ (y1 = y2 ∧ (m1 < m2 ∨ (m1 = m2 ∧ d1 ≤ d2)))

/-! ## Dedup reconciler lemmas -/

theorem dedupRows_fst (key : Row → String) (out : Row → List String) :
    ∀ (E : List String) (rows : List Row),
      (dedupRows key out E rows).1 = (acceptedList key E rows).map out := by
  intro E rows
  induction rows generalizing E with
  | nil => rfl
  | cons r rs ih =>
    by_cases hk : key r ∈ E
    · simp [dedupRows, acceptedList, hk, ih]
    · simp [dedupRows, acceptedList, hk, ih]

theorem acceptedList_subset (key : Row → String) :
    ∀ (rows : List Row) (E : List String) (r : Row),
      r ∈ acceptedList key E rows → r ∈ rows := by
  intro rows
  induction rows with
  | nil => intro E r h; simp [acceptedList] at h
  | cons x xs ih =>
    intro E r h
    by_cases hk : key x ∈ E
    · rw [acceptedList, if_pos hk] at h
      exact List.mem_cons_of_mem _ (ih E r h)
    · rw [acceptedList, if_neg hk] at h
      rcases List.mem_cons.mp h with h | h
      · exact h ▸ List.mem_cons_self _ _
      · exact List.mem_cons_of_mem _ (ih _ r h)

/-- Every candidate's key is either already in the initial set or is the
key of some accepted candidate. -/
theorem acceptedList_key_mem (key : Row → String) :
    ∀ (rows : List Row) (E : List String) (r : Row), r ∈ rows →
      key r ∈ E ∨ key r ∈ (acceptedList key E rows).map key := by
  intro rows
  induction rows with
  | nil => intro E r h; simp at h
  | cons x xs ih =>
    intro E r h
    by_cases hk : key x ∈ E
    · rw [acceptedList, if_pos hk]
      rcases List.mem_cons.mp h with h | h
      · exact Or.inl (h ▸ hk)
      · exact ih E r h
    · rw [acceptedList, if_neg hk]
      rcases List.mem_cons.mp h with h | h
      · subst h; exact Or.inr (by simp)
      · rcases ih (key x :: E) r h with h' | h'
        · rcases List.mem_cons.mp h' with h' | h'
          · exact Or.inr (by simp [h'])
          · exact Or.inl h'
        · exact Or.inr (by simp [h'])

/-- If every candidate's key is already present, nothing is accepted. -/
theorem acceptedList_nil (key : Row → String) :
    ∀ (rows : List Row) (E : List String),
      (∀ r ∈ rows, key r ∈ E) → acceptedList key E rows = [] := by
  intro rows
  induction rows with
  | nil => intro E _; rfl
  | cons x xs ih =>
    intro E h
    have hx : key x ∈ E := h x (List.mem_cons_self _ _)
    rw [acceptedList, if_pos hx]
    exact ih E (fun r hr => h r (List.mem_cons_of_mem _ hr))

theorem acceptedFlags_length (key : Row → String) :
    ∀ (rows : List Row) (E : List String),
      (acceptedFlags key E rows).length = rows.length := by
  intro rows
  induction rows with
  | nil => intro E; rfl
  | cons x xs ih =>
    intro E
    by_cases hk : key x ∈ E
    · simp [acceptedFlags, hk, ih]
    · simp [acceptedFlags, hk, ih]

/-- The acceptance condition, position by position: accepted iff the key
is neither among the initial keys nor the key of an earlier accepted
candidate. -/
theorem acceptedFlags_iff (key : Row → String) :
    ∀ (rows : List Row) (E : List String) (i : Nat), i < rows.length →
      ((acceptedFlags key E rows).getD i false = true ↔
        (key (rows.getD i []) ∉ E ∧
          ∀ j, j < i → (acceptedFlags key E rows).getD j false = true →
            key (rows.getD j []) ≠ key (rows.getD i []))) := by
  intro rows
  induction rows with
  | nil => intro E i hi; simp at hi
  | cons r rs ih =>
    intro E i hi
    by_cases hk : key r ∈ E
    · rw [acceptedFlags, if_pos hk]
      cases i with
      | zero =>
        simp only [List.getD_cons_zero]
        constructor
        · intro h; cases h
        · rintro ⟨h1, _⟩; exact absurd hk h1
      | succ n =>
        have hn : n < rs.length := by simpa using hi
        simp only [List.getD_cons_succ]
        rw [ih E n hn]
        constructor
        · rintro ⟨h1, h2⟩
          refine ⟨h1, ?_⟩
          intro j hj hflag
          cases j with
          | zero => simp at hflag
          | succ m =>
            simp only [List.getD_cons_succ] at hflag ⊢
            exact h2 m (by omega) hflag
        · rintro ⟨h1, h2⟩
          refine ⟨h1, ?_⟩
          intro m hm hflag
          have := h2 (m + 1) (by omega)
          simp only [List.getD_cons_succ] at this
          exact this hflag
    · rw [acceptedFlags, if_neg hk]
      cases i with
      | zero =>
        simp only [List.getD_cons_zero]
        constructor
        · intro _; exact ⟨hk, by intro j hj; omega⟩
        · intro _; trivial
      | succ n =>
        have hn : n < rs.length := by simpa using hi
        simp only [List.getD_cons_succ]
        rw [ih (key r :: E) n hn]
        constructor
        · rintro ⟨h1, h2⟩
          rw [List.mem_cons] at h1
          push_neg at h1
          obtain ⟨hne, hnotE⟩ := h1
          refine ⟨hnotE, ?_⟩
          intro j hj hflag
          cases j with
          | zero =>
            simp only [List.getD_cons_zero] at hflag ⊢
            exact fun h => hne h.symm
          | succ m =>
            simp only [List.getD_cons_succ] at hflag ⊢
            exact h2 m (by omega) hflag
        · rintro ⟨h1, h2⟩
          have h0 : key r ≠ key (rs.getD n []) := by
            simpa using h2 0 (by omega)
          refine ⟨?_, ?_⟩
          · rw [List.mem_cons]
            rintro (h | h)
            · exact h0 h.symm
            · exact h1 h
          · intro m hm hflag
            have := h2 (m + 1) (by omega)
            simp only [List.getD_cons_succ] at this
            exact this hflag

/-! ## Grouping lemmas -/

theorem assocAppend_mem_inv :
    ∀ (acc : List (String × List Row)) (k : String) (x : Row) (p : String × List Row) (y : Row),
      p ∈ assocAppend acc k x → y ∈ p.2 → (∃ q ∈ acc, y ∈ q.2) ∨ y = x := by
  intro acc
  induction acc with
  | nil =>
    intro k x p y hp hy
    simp only [assocAppend, List.mem_singleton] at hp
    subst hp
    simp only [List.mem_singleton] at hy
    exact Or.inr hy
  | cons q' rest ih =>
    intro k x p y hp hy
    by_cases hk : q'.1 = k
    · rw [show assocAppend (q' :: rest) k x = (q'.1, q'.2 ++ [x]) :: rest by
        rw [assocAppend]; simp [hk]] at hp
      rcases List.mem_cons.mp hp with hp | hp
      · subst hp
        simp only at hy
        rcases List.mem_append.mp hy with hy | hy
        · exact Or.inl ⟨q', List.mem_cons_self _ _, hy⟩
        · exact Or.inr (List.mem_singleton.mp hy)
      · exact Or.inl ⟨p, List.mem_cons_of_mem _ hp, hy⟩
    · rw [show assocAppend (q' :: rest) k x = (q'.1, q'.2) :: assocAppend rest k x by
        rw [assocAppend]; simp [hk]] at hp
      rcases List.mem_cons.mp hp with hp | hp
      · subst hp
        exact Or.inl ⟨q', List.mem_cons_self _ _, hy⟩
      · rcases ih k x p y hp hy with ⟨q, hq, hyq⟩ | h
        · exact Or.inl ⟨q, List.mem_cons_of_mem _ hq, hyq⟩
        · exact Or.inr h

theorem groupStep_mem_inv (acc : List (String × List Row)) (r : Row)
    (p : String × List Row) (y : Row)
    (hp : p ∈ groupStep acc r) (hy : y ∈ p.2) :
    (∃ q ∈ acc, y ∈ q.2) ∨ y = r := by
  unfold groupStep at hp
  rcases hd : parse_date (rget r "gameDateTimeEst") with _ | dt
  · rw [hd] at hp
    exact Or.inl ⟨p, hp, hy⟩
  · rw [hd] at hp
    dsimp only at hp
    rcases ht : playerTabFor dt with _ | tab
    · rw [ht] at hp
      exact Or.inl ⟨p, hp, hy⟩
    · rw [ht] at hp
      exact assocAppend_mem_inv acc tab r p y hp hy

/-- A row whose date is unroutable (unparseable, or bucketed outside the
allow-list) appears in no bucket of the grouping. -/
theorem groupFold_not_mem (r : Row)
    (hr : ∀ dt, parse_date (rget r "gameDateTimeEst") = some dt → playerTabFor dt = none) :
    ∀ (rows : List Row) (acc : List (String × List Row)),
      (∀ p ∈ acc, r ∉ p.2) → ∀ p ∈ rows.foldl groupStep acc, r ∉ p.2 := by
  intro rows
  induction rows with
  | nil => intro acc hacc p hp; exact hacc p hp
  | cons x xs ih =>
    intro acc hacc p hp
    refine ih (groupStep acc x) ?_ p hp
    intro p' hp' hrp'
    rcases groupStep_mem_inv acc x p' r hp' hrp' with ⟨q, hq, hyq⟩ | h
    · exact hacc q hq hyq
    · subst h
      rcases hd : parse_date (rget r "gameDateTimeEst") with _ | dt
      · rw [show groupStep acc r = acc by unfold groupStep; rw [hd]] at hp'
        exact hacc p' hp' hrp'
      · rw [show groupStep acc r = acc by
          unfold groupStep; rw [hd]; dsimp only; rw [hr dt hd]] at hp'
        exact hacc p' hp' hrp'

/-! ## Claim C2: dedup reconciler correctness -/

/-- **C2**: a candidate is accepted iff its composite key is neither in
the existing-key set nor the key of an earlier accepted candidate of the
same batch; with existing keys `100|1`, `100|2` and candidates keyed
`100|1`, `100|2`, `100|3` exactly the third is accepted; and of two
candidates with identical keys only the first is accepted. -/
theorem claim_C2 :
    (∀ (key : Row → String) (E : List String) (rows : List Row) (i : Nat), i < rows.length →
      ((acceptedFlags key E rows).getD i false = true ↔
        (key (rows.getD i []) ∉ E ∧
          ∀ j, j < i → (acceptedFlags key E rows).getD j false = true →
            key (rows.getD j []) ≠ key (rows.getD i []))))
    ∧ acceptedList playerKey ["100|1", "100|2"]
        [[("personId", "100"), ("gameId", "1")],
         [("personId", "100"), ("gameId", "2")],
         [("personId", "100"), ("gameId", "3")]]
      = [[("personId", "100"), ("gameId", "3")]]
    ∧ acceptedList playerKey []
        [[("personId", "100"), ("gameId", "1"), ("note", "first")],
         [("personId", "100"), ("gameId", "1"), ("note", "second")]]
      = [[("personId", "100"), ("gameId", "1"), ("note", "first")]] :=
  ⟨fun key E rows i hi => acceptedFlags_iff key rows E i hi, by decide, by decide⟩

theorem claim_C2_witness :
    (acceptedFlags playerKey ["100|1", "100|2"]
      [[("personId", "100"), ("gameId", "3")]]).getD 0 false = true := by
  refine (claim_C2.1 playerKey ["100|1", "100|2"]
    [[("personId", "100"), ("gameId", "3")]] 0 (by decide)).mpr ⟨by decide, ?_⟩
  intro j hj
  omega

/-! ## Claim C5: season bucketing and routing (player pipeline) -/

/-- **C5**: the bucket is `year+1` for months ≥ 7 and `year` otherwise;
a row is routed to tab `players-<bucket>` exactly when the bucket is in
the allow-list and is dropped (no bucket, hence no tab) otherwise;
`2024-11-15` routes to `players-2025`, `2024-03-10` to `players-2024`,
and a bucket of 2027 is dropped. -/
theorem claim_C5 :
    (∀ dt : PyDateTime, season_end_year dt = (if 7 ≤ dt.month then dt.year + 1 else dt.year))
    ∧ (∀ (dt : PyDateTime) (tab : String), playerTabFor dt = some tab ↔
        (season_end_year dt ∈ ALLOWED_SEASON_END_YEARS ∧
          tab = "players-" ++ toString (season_end_year dt)))
    ∧ (∃ dt, parse_date "2024-11-15" = some dt ∧ playerTabFor dt = some "players-2025")
    ∧ (∃ dt, parse_date "2024-03-10" = some dt ∧ playerTabFor dt = some "players-2024")
    ∧ (∀ dt : PyDateTime, season_end_year dt = 2027 → playerTabFor dt = none)
    ∧ (∀ (recent : List Row) (r : Row),
        (∀ dt, parse_date (rget r "gameDateTimeEst") = some dt → playerTabFor dt = none) →
        ∀ p ∈ groupPlayer recent, r ∉ p.2) := by
  refine ⟨fun dt => rfl, ?_, by decide, by decide, ?_, ?_⟩
  · intro dt tab
    unfold playerTabFor
    by_cases h : season_end_year dt ∈ ALLOWED_SEASON_END_YEARS
    · simp only [if_pos h]
      constructor
      · intro he
        exact ⟨h, (Option.some.injEq _ _).mp he |>.symm⟩
      · rintro ⟨_, rfl⟩; rfl
    · simp only [if_neg h]
      constructor
      · intro he; cases he
      · rintro ⟨h', _⟩; exact absurd h' h
  · intro dt h
    unfold playerTabFor
    rw [h]
    decide
  · intro recent r hr p hp
    exact groupFold_not_mem r hr recent [] (by intro p' hp'; cases hp') p hp

theorem claim_C5_witness :
    playerTabFor ⟨2026, 12, 25, 0, 0, 0, some (-18000)⟩ = none := by
  have h27 : season_end_year ⟨2026, 12, 25, 0, 0, 0, some (-18000)⟩ = 2027 := by decide
  exact claim_C5.2.2.2.2.1 _ h27

/-! ## Claim C6: team season window predicate -/

/-- **C6**: for every valid calendar date, `is_current_season` holds iff
the date lies in July 2025 – June 2026 inclusive; `2025-08-01` passes
while `2025-06-01` and `2026-07-01` fail. -/
theorem claim_C6 :
    (∀ dt : PyDateTime, 1 ≤ dt.month → dt.month ≤ 12 → 1 ≤ dt.day →
      dt.day ≤ daysInMonth dt.year dt.month →
      (is_current_season dt = true ↔
        (dateTripleLe 2025 7 1 dt.year dt.month dt.day ∧
          dateTripleLe dt.year dt.month dt.day 2026 6 30)))
    ∧ (∃ dt, parse_date "2025-08-01" = some dt ∧ is_current_season dt = true)
    ∧ (∃ dt, parse_date "2025-06-01" = some dt ∧ is_current_season dt = false)
    ∧ (∃ dt, parse_date "2026-07-01" = some dt ∧ is_current_season dt = false) := by
  refine ⟨?_, by decide, by decide, by decide⟩
  intro dt h1 h2 h3 h4
  unfold is_current_season dateTripleLe
  split_ifs with ha hb
  · simp only [Bool.and_eq_true, decide_eq_true_eq] at ha
    constructor
    · intro _; omega
    · intro _; rfl
  · simp only [Bool.and_eq_true, decide_eq_true_eq] at hb
    constructor
    · intro _
      by_cases hm6 : dt.month = 6
      · have h30 : daysInMonth dt.year dt.month = 30 := by
          rw [hm6]; norm_num [daysInMonth]
        rw [h30] at h4
        omega
      · omega
    · intro _; rfl
  · simp only [Bool.and_eq_true, decide_eq_true_eq, not_and, not_le] at ha hb
    constructor
    · intro h; cases h
    · intro hp
      exfalso
      omega

theorem claim_C6_witness : is_current_season ⟨2025, 10, 21, 19, 0, 0, some (-18000)⟩ = true := by
  refine ((claim_C6.1 ⟨2025, 10, 21, 19, 0, 0, some (-18000)⟩
    (by decide) (by decide) (by decide) (by decide)).mpr ?_)
  show dateTripleLe 2025 7 1 2025 10 21 ∧ dateTripleLe 2025 10 21 2026 6 30
  unfold dateTripleLe
  omega

/-! ## Claim C7: date parser totality -/

/-- **C7**: the date parser is total — every input yields either a
parsed value or no value — and both `""` and `"not-a-date"` yield no
value. -/
theorem claim_C7 :
    (∀ s : String, parse_date s = none ∨ ∃ dt, parse_date s = some dt)
    ∧ parse_date "" = none
    ∧ parse_date "not-a-date" = none := by
  refine ⟨?_, by decide, by decide⟩
  intro s
  rcases h : parse_date s with _ | dt
  · exact Or.inl rfl
  · exact Or.inr ⟨dt, rfl⟩

/-! ## Claim C8: fixed UTC-5 offset for naive parses -/

/-- **C8**: every successfully parsed value lacking explicit timezone
information is returned with the fixed UTC-5 offset (−18000 seconds);
in particular `"2025-11-15T19:30:00"` parses to Nov 15 2025 19:30 at
UTC-5. -/
theorem claim_C8 :
    (∀ (s : String) (dt : PyDateTime),
      tryFormats (pstripL s.data) = some dt → dt.tz = none →
      parse_date s = some { dt with tz := some ET_OFFSET })
    ∧ parse_date "2025-11-15T19:30:00" =
        some ⟨2025, 11, 15, 19, 30, 0, some (-18000)⟩ := by
  refine ⟨?_, by decide⟩
  intro s dt h htz
  by_cases hs : s = ""
  · subst hs
    have hnone : tryFormats (pstripL ("" : String).data) = none := by decide
    rw [hnone] at h
    cases h
  · unfold parse_date
    rw [if_neg hs, h]
    simp [htz]

theorem claim_C8_witness : parse_date "2025-03-09 12:34:56" =
    some ⟨2025, 3, 9, 12, 34, 56, some (-18000)⟩ :=
  claim_C8.1 "2025-03-09 12:34:56" ⟨2025, 3, 9, 12, 34, 56, none⟩ (by decide) rfl

/-! ## Claim C3: existing-key set construction (corrected) -/

/-- **C3** counterexample: in the player pipeline a data row whose first
key cell is the empty string still contributes a key (here `"|5"`),
contradicting "any row whose first or second key part is empty or
missing contributes no key to the set". -/
theorem claim_C3_counterexample :
    "|5" ∈ playerKeysOf [["personId", "gameId"], ["", "5"]] := by decide

theorem teamKeysLoop_mem :
    ∀ (a e : Grid) (k : String),
      k ∈ teamKeysLoop a e ↔
        ∃ i, i < min a.length e.length ∧
          headCell (a.getD i []) ≠ "" ∧ headCell (e.getD i []) ≠ "" ∧
          k = headCell (e.getD i []) ++ "|" ++ headCell (a.getD i []) := by
  intro a
  induction a with
  | nil =>
    intro e k
    constructor
    · intro h; cases h
    · rintro ⟨i, hi, _⟩; simp at hi
  | cons ra as ih =>
    intro e k
    cases e with
    | nil =>
      constructor
      · intro h; cases h
      · rintro ⟨i, hi, _⟩; simp at hi
    | cons re es =>
      rw [show teamKeysLoop (ra :: as) (re :: es) =
          (if headCell ra ≠ "" && headCell re ≠ "" then
            (headCell re ++ "|" ++ headCell ra) :: teamKeysLoop as es
          else teamKeysLoop as es) from rfl]
      by_cases hc : (headCell ra ≠ "" && headCell re ≠ "") = true
      · rw [if_pos hc]
        simp only [Bool.and_eq_true, decide_eq_true_eq] at hc
        constructor
        · intro h
          rcases List.mem_cons.mp h with h | h
          · exact ⟨0, by simp, by simpa using hc.1, by simpa using hc.2, by simpa using h⟩
          · obtain ⟨j, hj, hj1, hj2, hj3⟩ := (ih es k).mp h
            exact ⟨j + 1, by simp at hj ⊢; omega, by simpa using hj1,
              by simpa using hj2, by simpa using hj3⟩
        · rintro ⟨i, hi, hi1, hi2, hi3⟩
          cases i with
          | zero =>
            simp only [List.getD_cons_zero] at hi3
            exact List.mem_cons.mpr (Or.inl hi3)
          | succ j =>
            simp only [List.getD_cons_succ] at hi1 hi2 hi3
            refine List.mem_cons.mpr (Or.inr ((ih es k).mpr ⟨j, ?_, hi1, hi2, hi3⟩))
            simp at hi ⊢
            omega
      · rw [if_neg hc]
        simp only [Bool.and_eq_true, decide_eq_true_eq, not_and] at hc
        constructor
        · intro h
          obtain ⟨j, hj, hj1, hj2, hj3⟩ := (ih es k).mp h
          exact ⟨j + 1, by simp at hj ⊢; omega, by simpa using hj1,
            by simpa using hj2, by simpa using hj3⟩
        · rintro ⟨i, hi, hi1, hi2, hi3⟩
          cases i with
          | zero =>
            simp only [List.getD_cons_zero] at hi1 hi2
            exact absurd (hc (by simpa using hi1)) (by simpa using hi2)
          | succ j =>
            simp only [List.getD_cons_succ] at hi1 hi2 hi3
            refine (ih es k).mpr ⟨j, ?_, hi1, hi2, hi3⟩
            simp at hi ⊢
            omega

/-- **C3** (amended): the player pipeline's key set contains exactly the
keys `"<c>|<d>"` of data rows having at least two cells in the `C:D`
slice — a present-but-empty cell still contributes — while the team
pipeline's key set contains exactly the keys `"<teamId>|<gameId>"` of
data rows whose two cells are both present and non-empty. -/
theorem claim_C3 :
    (∀ (values : Grid) (k : String),
      k ∈ playerKeysOf values ↔
        ∃ row ∈ values.drop 1, 2 ≤ row.length ∧
          k = row.getD 0 "" ++ "|" ++ row.getD 1 "")
    ∧ (∀ (rowsA rowsE : Grid) (k : String),
      k ∈ teamKeysOf rowsA rowsE ↔
        ∃ i, i < min (rowsA.drop 1).length (rowsE.drop 1).length ∧
          headCell ((rowsA.drop 1).getD i []) ≠ "" ∧
          headCell ((rowsE.drop 1).getD i []) ≠ "" ∧
          k = headCell ((rowsE.drop 1).getD i []) ++ "|" ++
              headCell ((rowsA.drop 1).getD i [])) := by
  constructor
  · intro values k
    unfold playerKeysOf
    rw [List.mem_filterMap]
    constructor
    · rintro ⟨row, hrow, hk⟩
      unfold keyOfCD at hk
      by_cases hl : 2 ≤ row.length
      · rw [if_pos hl] at hk
        exact ⟨row, hrow, hl, ((Option.some.injEq _ _).mp hk).symm⟩
      · rw [if_neg hl] at hk; cases hk
    · rintro ⟨row, hrow, hl, hk⟩
      exact ⟨row, hrow, by unfold keyOfCD; rw [if_pos hl, hk]⟩
  · intro rowsA rowsE k
    exact teamKeysLoop_mem (rowsA.drop 1) (rowsE.drop 1) k

theorem claim_C3_witness :
    "7|9" ∈ teamKeysOf [["gameId"], ["9"]] [["teamId"], ["7"]] := by
  refine (claim_C3.2 [["gameId"], ["9"]] [["teamId"], ["7"]] "7|9").mpr ⟨0, ?_, ?_, ?_, ?_⟩
    <;> decide

/-! ## Claim C4: failure behaviour of the existing-key read (corrected) -/

/-- **C4** counterexample: an auth failure of the read inside
`get_existing_keys` is swallowed by the bare `except Exception` — the
function returns the empty key set and the run continues, instead of
terminating as fatal. -/
theorem claim_C4_counterexample :
    get_existing_keysE (Except.error ApiError.authError) = Except.ok [] := rfl

/-- **C4** (amended): if the existing-key read fails for any reason —
tab missing, auth, network or quota — the key set is empty and the run
continues; a successful read yields the computed key set; external
failures of the unguarded tab-metadata read are fatal. -/
theorem claim_C4 :
    (∀ e : ApiError, get_existing_keysE (Except.error e) = Except.ok [])
    ∧ (∀ values : Grid, get_existing_keysE (Except.ok values) = Except.ok (playerKeysOf values))
    ∧ (∀ (e : ApiError) (st : Store) (tab : String) (headers : List String),
        ensure_tab_existsE (Except.error e) st tab headers = Except.error e) :=
  ⟨fun _ => rfl, fun _ => rfl, fun _ _ _ _ => rfl⟩

/-! ## Claim C9: output row construction -/

/-- **C9**: the rows appended by the dedup loop are exactly the output
rows of the accepted candidates; an output row lists the candidate's
values in expected-header order; and a column absent from the row is
mapped to the empty value. -/
theorem claim_C9 :
    (∀ (E : List String) (rows : List Row),
      (dedupRows playerKey (outputRow PLAYER_EXPECTED_HEADERS) E rows).1 =
        (acceptedList playerKey E rows).map (outputRow PLAYER_EXPECTED_HEADERS))
    ∧ (∀ (E : List String) (rows : List Row),
      (dedupRows teamKey (outputRow TEAM_EXPECTED_HEADERS) E rows).1 =
        (acceptedList teamKey E rows).map (outputRow TEAM_EXPECTED_HEADERS))
    ∧ (∀ (headers : List String) (r : Row) (i : Nat), i < headers.length →
        (outputRow headers r).getD i "" = rget r (headers.getD i ""))
    ∧ (∀ (r : Row) (h : String), (∀ p ∈ r, p.1 ≠ h) → rget r h = "") := by
  refine ⟨fun E rows => dedupRows_fst _ _ E rows, fun E rows => dedupRows_fst _ _ E rows, ?_, ?_⟩
  · intro headers
    induction headers with
    | nil => intro r i hi; simp at hi
    | cons h hs ih =>
      intro r i hi
      cases i with
      | zero => simp [outputRow]
      | succ n =>
        have := ih r n (by simpa using hi)
        simpa [outputRow] using this
  · intro r
    induction r with
    | nil => intro h _; rfl
    | cons p ps ih =>
      intro h hne
      rw [show rget (p :: ps) h = (if p.1 = h then p.2 else rget ps h) from rfl,
        if_neg (hne p (List.mem_cons_self _ _))]
      exact ih h (fun q hq => hne q (List.mem_cons_of_mem _ hq))

theorem claim_C9_witness :
    (outputRow PLAYER_EXPECTED_HEADERS [("personId", "7")]).getD 2 "" = "7" :=
  (claim_C9.2.2.1 PLAYER_EXPECTED_HEADERS [("personId", "7")] 2 (by decide)).trans (by decide)

/-! ## Store lemmas (for claim C1) -/

theorem tabGrid_snoc_of_none :
    ∀ (st : Store) (tab tab' : String) (g : Grid), tabGrid st tab' = none →
      tabGrid (st ++ [(tab, g)]) tab' = if tab = tab' then some g else none := by
  intro st
  induction st with
  | nil => intro tab tab' g _; rfl
  | cons e rest ih =>
    intro tab tab' g h
    rw [show tabGrid (e :: rest) tab' = (if e.1 = tab' then some e.2 else tabGrid rest tab')
      from rfl] at h
    by_cases he : e.1 = tab'
    · rw [if_pos he] at h; cases h
    · rw [if_neg he] at h
      show (if e.1 = tab' then some e.2 else tabGrid (rest ++ [(tab, g)]) tab') = _
      rw [if_neg he]
      exact ih tab tab' g h

theorem tabGrid_snoc_of_some :
    ∀ (st : Store) (tab tab' : String) (g g' : Grid), tabGrid st tab' = some g' →
      tabGrid (st ++ [(tab, g)]) tab' = some g' := by
  intro st
  induction st with
  | nil => intro tab tab' g g' h; cases h
  | cons e rest ih =>
    intro tab tab' g g' h
    rw [show tabGrid (e :: rest) tab' = (if e.1 = tab' then some e.2 else tabGrid rest tab')
      from rfl] at h
    show (if e.1 = tab' then some e.2 else tabGrid (rest ++ [(tab, g)]) tab') = some g'
    by_cases he : e.1 = tab'
    · rw [if_pos he] at h ⊢; exact h
    · rw [if_neg he] at h ⊢; exact ih tab tab' g g' h

theorem ensureTab_eq_of_some (st : Store) (tab : String) (H : List String) (g : Grid)
    (h : tabGrid st tab = some g) : ensureTab st tab H = st := by
  unfold ensureTab hasTab
  rw [h]
  rfl

theorem tabGrid_ensureTab_self (st : Store) (tab : String) (H : List String) :
    ∃ g, tabGrid (ensureTab st tab H) tab = some g ∧
      (tabGrid st tab = some g ∨ g = [H]) := by
  cases h : tabGrid st tab with
  | some g =>
    rw [ensureTab_eq_of_some st tab H g h]
    exact ⟨g, h, Or.inl rfl⟩
  | none =>
    refine ⟨[H], ?_, Or.inr rfl⟩
    unfold ensureTab hasTab
    rw [h]
    show tabGrid (st ++ [(tab, [H])]) tab = some [H]
    rw [tabGrid_snoc_of_none st tab tab [H] h, if_pos rfl]

theorem tabGrid_ensureTab_other (st : Store) (tab tab' : String) (H : List String)
    (hne : tab ≠ tab') : tabGrid (ensureTab st tab' H) tab = tabGrid st tab := by
  unfold ensureTab
  by_cases h : hasTab st tab'
  · rw [if_pos h]
  · rw [if_neg h]
    cases hg : tabGrid st tab with
    | some g => exact tabGrid_snoc_of_some st tab' tab [H] g hg
    | none =>
      rw [tabGrid_snoc_of_none st tab' tab [H] hg, if_neg (fun he => hne he.symm)]

theorem tabGrid_appendToGrid_self :
    ∀ (st : Store) (tab : String) (rows g : Grid), tabGrid st tab = some g →
      tabGrid (appendToGrid st tab rows) tab = some (g ++ rows) := by
  intro st
  induction st with
  | nil => intro tab rows g h; cases h
  | cons e rest ih =>
    intro tab rows g h
    rw [show tabGrid (e :: rest) tab = (if e.1 = tab then some e.2 else tabGrid rest tab)
      from rfl] at h
    by_cases he : e.1 = tab
    · rw [if_pos he] at h
      rw [show appendToGrid (e :: rest) tab rows =
          (if e.1 = tab then (e.1, e.2 ++ rows) :: rest
            else (e.1, e.2) :: appendToGrid rest tab rows) from rfl,
        if_pos he]
      show (if e.1 = tab then some (e.2 ++ rows) else tabGrid rest tab) = some (g ++ rows)
      rw [if_pos he, (Option.some.injEq _ _).mp h]
    · rw [if_neg he] at h
      rw [show appendToGrid (e :: rest) tab rows =
          (if e.1 = tab then (e.1, e.2 ++ rows) :: rest
            else (e.1, e.2) :: appendToGrid rest tab rows) from rfl,
        if_neg he]
      show (if e.1 = tab then some e.2 else tabGrid (appendToGrid rest tab rows) tab)
        = some (g ++ rows)
      rw [if_neg he]
      exact ih tab rows g h

theorem tabGrid_appendToGrid_other :
    ∀ (st : Store) (tab tab' : String) (rows : Grid), tab ≠ tab' →
      tabGrid (appendToGrid st tab' rows) tab = tabGrid st tab := by
  intro st
  induction st with
  | nil => intro tab tab' rows _; rfl
  | cons e rest ih =>
    intro tab tab' rows hne
    rw [show appendToGrid (e :: rest) tab' rows =
        (if e.1 = tab' then (e.1, e.2 ++ rows) :: rest
          else (e.1, e.2) :: appendToGrid rest tab' rows) from rfl]
    by_cases he : e.1 = tab'
    · rw [if_pos he]
      show (if e.1 = tab then some (e.2 ++ rows) else tabGrid rest tab) = _
      rw [if_neg (by rw [he]; exact fun h => hne h.symm)]
      show _ = (if e.1 = tab then some e.2 else tabGrid rest tab)
      rw [if_neg (by rw [he]; exact fun h => hne h.symm)]
    · rw [if_neg he]
      show (if e.1 = tab then some e.2 else tabGrid (appendToGrid rest tab' rows) tab) = _
      show _ = (if e.1 = tab then some e.2 else tabGrid rest tab)
      by_cases ht : e.1 = tab
      · rw [if_pos ht, if_pos ht]
      · rw [if_neg ht, if_neg ht]
        exact ih tab tab' rows hne

theorem tabGrid_append_rows_self (st : Store) (tab : String) (rows g : Grid)
    (h : tabGrid st tab = some g) :
    tabGrid (append_rows st tab rows) tab = some (g ++ rows) := by
  unfold append_rows
  by_cases hr : rows = []
  · rw [if_pos hr, hr, List.append_nil]
    exact h
  · rw [if_neg hr]
    exact tabGrid_appendToGrid_self st tab rows g h

theorem tabGrid_append_rows_other (st : Store) (tab tab' : String) (rows : Grid)
    (hne : tab ≠ tab') : tabGrid (append_rows st tab' rows) tab = tabGrid st tab := by
  unfold append_rows
  by_cases hr : rows = []
  · rw [if_pos hr]
  · rw [if_neg hr]
    exact tabGrid_appendToGrid_other st tab tab' rows hne

theorem tabGrid_appendToGrid_inv :
    ∀ (st : Store) (tab : String) (rows : Grid) (t : String) (g : Grid),
      tabGrid (appendToGrid st tab rows) t = some g →
      tabGrid st t = some g ∨ ∃ g0, tabGrid st t = some g0 ∧ g = g0 ++ rows := by
  intro st
  induction st with
  | nil => intro tab rows t g h; cases h
  | cons e rest ih =>
    intro tab rows t g h
    rw [show appendToGrid (e :: rest) tab rows =
        (if e.1 = tab then (e.1, e.2 ++ rows) :: rest
          else (e.1, e.2) :: appendToGrid rest tab rows) from rfl] at h
    by_cases he : e.1 = tab
    · rw [if_pos he] at h
      rw [show tabGrid ((e.1, e.2 ++ rows) :: rest) t =
          (if e.1 = t then some (e.2 ++ rows) else tabGrid rest t) from rfl] at h
      by_cases ht : e.1 = t
      · rw [if_pos ht] at h
        refine Or.inr ⟨e.2, ?_, ((Option.some.injEq _ _).mp h).symm⟩
        show (if e.1 = t then some e.2 else tabGrid rest t) = some e.2
        rw [if_pos ht]
      · rw [if_neg ht] at h
        refine Or.inl ?_
        show (if e.1 = t then some e.2 else tabGrid rest t) = some g
        rw [if_neg ht]
        exact h
    · rw [if_neg he] at h
      rw [show tabGrid ((e.1, e.2) :: appendToGrid rest tab rows) t =
          (if e.1 = t then some e.2 else tabGrid (appendToGrid rest tab rows) t)
        from rfl] at h
      by_cases ht : e.1 = t
      · rw [if_pos ht] at h
        refine Or.inl ?_
        show (if e.1 = t then some e.2 else tabGrid rest t) = some g
        rw [if_pos ht]
        exact h
      · rw [if_neg ht] at h
        rcases ih tab rows t g h with h' | ⟨g0, hg0, hg⟩
        · refine Or.inl ?_
          show (if e.1 = t then some e.2 else tabGrid rest t) = some g
          rw [if_neg ht]
          exact h'
        · refine Or.inr ⟨g0, ?_, hg⟩
          show (if e.1 = t then some e.2 else tabGrid rest t) = some g0
          rw [if_neg ht]
          exact hg0

theorem goodStore_snoc (st : Store) (tab : String) (g0 : Grid)
    (hst : goodStore st) (hg0 : g0 ≠ []) : goodStore (st ++ [(tab, g0)]) := by
  intro t g hg
  cases h : tabGrid st t with
  | some g' =>
    rw [tabGrid_snoc_of_some st tab t g0 g' h] at hg
    exact ((Option.some.injEq _ _).mp hg) ▸ hst t g' h
  | none =>
    rw [tabGrid_snoc_of_none st tab t g0 h] at hg
    by_cases he : tab = t
    · rw [if_pos he] at hg
      exact ((Option.some.injEq _ _).mp hg) ▸ hg0
    · rw [if_neg he] at hg; cases hg

theorem goodStore_ensureTab (st : Store) (tab : String) (H : List String)
    (hst : goodStore st) : goodStore (ensureTab st tab H) := by
  unfold ensureTab
  by_cases h : hasTab st tab
  · rw [if_pos h]; exact hst
  · rw [if_neg h]
    exact goodStore_snoc st tab [H] hst (by simp)

theorem goodStore_append_rows (st : Store) (tab : String) (rows : Grid)
    (hst : goodStore st) : goodStore (append_rows st tab rows) := by
  unfold append_rows
  by_cases hr : rows = []
  · rw [if_pos hr]; exact hst
  · rw [if_neg hr]
    intro t g hg
    rcases tabGrid_appendToGrid_inv st tab rows t g hg with h | ⟨g0, hg0, rfl⟩
    · exact hst t g h
    · intro hc
      exact hst t g0 hg0 (List.append_eq_nil.mp hc).1

/-! ## Key-set lemmas (for claim C1) -/

theorem drop_one_append {α : Type} (l1 l2 : List α) (h : l1 ≠ []) :
    (l1 ++ l2).drop 1 = l1.drop 1 ++ l2 := by
  cases l1 with
  | nil => exact absurd rfl h
  | cons x xs => simp

theorem playerKeysOf_append (v1 v2 : Grid) (h : v1 ≠ []) :
    playerKeysOf (v1 ++ v2) = playerKeysOf v1 ++ v2.filterMap keyOfCD := by
  unfold playerKeysOf
  rw [drop_one_append v1 v2 h, List.filterMap_append]

theorem readCD_outputRow_player (r : Row) :
    ((outputRow PLAYER_EXPECTED_HEADERS r).drop 2).take 2 =
      [rget r "personId", rget r "gameId"] := rfl

/-- Keys read back from the `C:D` slice of appended player output rows:
with whitespace-clean id fields they are exactly the rows' composite
keys. -/
theorem playerKeys_of_outRows :
    ∀ (l : List Row),
      (∀ r ∈ l, pstrip (rget r "personId") = rget r "personId" ∧
        pstrip (rget r "gameId") = rget r "gameId") →
      (readCD (l.map (outputRow PLAYER_EXPECTED_HEADERS))).filterMap keyOfCD =
        l.map playerKey := by
  intro l
  induction l with
  | nil => intro _; rfl
  | cons r rs ih =>
    intro h
    have hr := h r (List.mem_cons_self _ _)
    have hrs := fun x hx => h x (List.mem_cons_of_mem _ hx)
    unfold readCD
    rw [List.map_cons, List.map_cons, List.filterMap_cons]
    rw [show keyOfCD (((outputRow PLAYER_EXPECTED_HEADERS r).drop 2).take 2) =
        some (rget r "personId" ++ "|" ++ rget r "gameId") by
      rw [readCD_outputRow_player]; rfl]
    rw [List.map_cons]
    rw [show playerKey r = rget r "personId" ++ "|" ++ rget r "gameId" by
      unfold playerKey; rw [hr.1, hr.2]]
    have := ih hrs
    unfold readCD at this
    rw [this]

theorem readColA_outputRow_team (r : Row) :
    (outputRow TEAM_EXPECTED_HEADERS r).take 1 = [rget r "gameId"] := rfl

theorem readColE_outputRow_team (r : Row) :
    ((outputRow TEAM_EXPECTED_HEADERS r).drop 4).take 1 = [rget r "teamId"] := rfl

theorem teamKeysLoop_append :
    ∀ (a1 e1 a2 e2 : Grid), a1.length = e1.length →
      teamKeysLoop (a1 ++ a2) (e1 ++ e2) = teamKeysLoop a1 e1 ++ teamKeysLoop a2 e2 := by
  intro a1
  induction a1 with
  | nil =>
    intro e1 a2 e2 h
    cases e1 with
    | nil => rfl
    | cons y ys => cases h
  | cons x xs ih =>
    intro e1 a2 e2 h
    cases e1 with
    | nil => cases h
    | cons y ys =>
      have h' : xs.length = ys.length := by simpa using h
      show (if headCell x ≠ "" && headCell y ≠ "" then
          (headCell y ++ "|" ++ headCell x) :: teamKeysLoop (xs ++ a2) (ys ++ e2)
        else teamKeysLoop (xs ++ a2) (ys ++ e2)) = _
      by_cases hc : (headCell x ≠ "" && headCell y ≠ "") = true
      · rw [if_pos hc, ih ys a2 e2 h']
        show _ = (if headCell x ≠ "" && headCell y ≠ "" then
            (headCell y ++ "|" ++ headCell x) :: teamKeysLoop xs ys
          else teamKeysLoop xs ys) ++ teamKeysLoop a2 e2
        rw [if_pos hc]
        rfl
      · rw [if_neg hc, ih ys a2 e2 h']
        show _ = (if headCell x ≠ "" && headCell y ≠ "" then
            (headCell y ++ "|" ++ headCell x) :: teamKeysLoop xs ys
          else teamKeysLoop xs ys) ++ teamKeysLoop a2 e2
        rw [if_neg hc]

/-- Keys read back from the `A`/`E` slices of appended team output rows:
with non-empty, whitespace-clean id fields they are exactly the rows'
composite keys. -/
theorem teamKeys_of_outRows :
    ∀ (l : List Row),
      (∀ r ∈ l, rget r "gameId" ≠ "" ∧ rget r "teamId" ≠ "" ∧
        pstrip (rget r "gameId") = rget r "gameId" ∧
        pstrip (rget r "teamId") = rget r "teamId") →
      teamKeysLoop (readColA (l.map (outputRow TEAM_EXPECTED_HEADERS)))
          (readColE (l.map (outputRow TEAM_EXPECTED_HEADERS))) =
        l.map teamKey := by
  intro l
  induction l with
  | nil => intro _; rfl
  | cons r rs ih =>
    intro h
    obtain ⟨hg, ht, hsg, hst⟩ := h r (List.mem_cons_self _ _)
    have hrs := fun x hx => h x (List.mem_cons_of_mem _ hx)
    unfold readColA readColE
    rw [List.map_cons, List.map_cons, List.map_cons, List.map_cons]
    rw [readColA_outputRow_team, readColE_outputRow_team]
    show (if headCell [rget r "gameId"] ≠ "" && headCell [rget r "teamId"] ≠ "" then
        (headCell [rget r "teamId"] ++ "|" ++ headCell [rget r "gameId"]) ::
          teamKeysLoop ((rs.map (outputRow TEAM_EXPECTED_HEADERS)).map (fun c => c.take 1))
            ((rs.map (outputRow TEAM_EXPECTED_HEADERS)).map (fun c => (c.drop 4).take 1))
      else _) = _
    rw [if_pos (by
      show (rget r "gameId" ≠ "" && rget r "teamId" ≠ "") = true
      rw [Bool.and_eq_true]
      exact ⟨decide_eq_true hg, decide_eq_true ht⟩)]
    have hrec := ih hrs
    unfold readColA readColE at hrec
    rw [show teamKey r = rget r "teamId" ++ "|" ++ rget r "gameId" by
      unfold teamKey; rw [hsg, hst]]
    rw [hrec]
    rfl

/-! ## Player pipeline lemmas (for claim C1) -/

theorem processPlayerTab_eq (st : Store) (tab : String) (rows : List Row) :
    processPlayerTab st tab rows =
      (append_rows (ensureTab st tab PLAYER_EXPECTED_HEADERS) tab
        ((acceptedList playerKey
          (playerKeysOf (readCD (gridAt (ensureTab st tab PLAYER_EXPECTED_HEADERS) tab)))
          rows).map (outputRow PLAYER_EXPECTED_HEADERS)),
      ((acceptedList playerKey
          (playerKeysOf (readCD (gridAt (ensureTab st tab PLAYER_EXPECTED_HEADERS) tab)))
          rows).map (outputRow PLAYER_EXPECTED_HEADERS)).length) := by
  unfold processPlayerTab
  dsimp only
  rw [dedupRows_fst]

theorem runPlayerStep_eq (st : Store) (n : Nat) (p : String × List Row) :
    runPlayerStep (st, n) p =
      ((processPlayerTab st p.1 p.2).1, n + (processPlayerTab st p.1 p.2).2) := rfl

theorem foldPlayer_frame :
    ∀ (G : List (String × List Row)) (st : Store) (n : Nat) (tab : String),
      tab ∉ G.map Prod.fst →
      tabGrid (G.foldl runPlayerStep (st, n)).1 tab = tabGrid st tab := by
  intro G
  induction G with
  | nil => intro st n tab _; rfl
  | cons p G' ih =>
    intro st n tab h
    rw [List.map_cons] at h
    have h1 : tab ≠ p.1 := fun he => h (he ▸ List.mem_cons_self _ _)
    have h2 : tab ∉ G'.map Prod.fst := fun hm => h (List.mem_cons_of_mem _ hm)
    rw [List.foldl_cons, runPlayerStep_eq, ih _ _ tab h2, processPlayerTab_eq]
    dsimp only
    rw [tabGrid_append_rows_other _ _ _ _ h1, tabGrid_ensureTab_other _ _ _ _ h1]

theorem foldPlayer_zero :
    ∀ (G : List (String × List Row)) (st : Store) (n : Nat),
      (∀ p ∈ G, ∃ g, tabGrid st p.1 = some g ∧
        ∀ r ∈ p.2, playerKey r ∈ playerKeysOf (readCD g)) →
      G.foldl runPlayerStep (st, n) = (st, n) := by
  intro G
  induction G with
  | nil => intro st n _; rfl
  | cons p G' ih =>
    intro st n h
    obtain ⟨g, hg, hkeys⟩ := h p (List.mem_cons_self _ _)
    have hstep : runPlayerStep (st, n) p = (st, n) := by
      rw [runPlayerStep_eq, processPlayerTab_eq,
        ensureTab_eq_of_some st p.1 PLAYER_EXPECTED_HEADERS g hg,
        show gridAt st p.1 = g by unfold gridAt; rw [hg]; rfl,
        acceptedList_nil playerKey p.2 (playerKeysOf (readCD g)) hkeys]
      simp [append_rows]
    rw [List.foldl_cons, hstep]
    exact ih st n (fun q hq => h q (List.mem_cons_of_mem _ hq))

theorem foldPlayer_establishes :
    ∀ (G : List (String × List Row)) (st : Store) (n : Nat),
      (G.map Prod.fst).Nodup → goodStore st →
      goodStore (G.foldl runPlayerStep (st, n)).1 ∧
      ∀ p ∈ G,
        (∀ r ∈ p.2, pstrip (rget r "personId") = rget r "personId" ∧
          pstrip (rget r "gameId") = rget r "gameId") →
        ∃ g, tabGrid (G.foldl runPlayerStep (st, n)).1 p.1 = some g ∧
          ∀ r ∈ p.2, playerKey r ∈ playerKeysOf (readCD g) := by
  intro G
  induction G with
  | nil => intro st n _ hgood; exact ⟨hgood, by intro p hp; cases hp⟩
  | cons p G' ih =>
    intro st n hnodup hgood
    obtain ⟨g1, hg1, hcase⟩ := tabGrid_ensureTab_self st p.1 PLAYER_EXPECTED_HEADERS
    have hg1ne : g1 ≠ [] := by
      rcases hcase with hc | hc
      · exact hgood p.1 g1 hc
      · rw [hc]; simp
    have hst2 : (processPlayerTab st p.1 p.2).1 =
        append_rows (ensureTab st p.1 PLAYER_EXPECTED_HEADERS) p.1
          ((acceptedList playerKey (playerKeysOf (readCD g1)) p.2).map
            (outputRow PLAYER_EXPECTED_HEADERS)) := by
      rw [processPlayerTab_eq]
      dsimp only
      rw [show gridAt (ensureTab st p.1 PLAYER_EXPECTED_HEADERS) p.1 = g1 by
        unfold gridAt; rw [hg1]; rfl]
    have hgood2 : goodStore (processPlayerTab st p.1 p.2).1 := by
      rw [hst2]
      exact goodStore_append_rows _ _ _ (goodStore_ensureTab _ _ _ hgood)
    have hgridP : tabGrid (processPlayerTab st p.1 p.2).1 p.1 =
        some (g1 ++ (acceptedList playerKey (playerKeysOf (readCD g1)) p.2).map
          (outputRow PLAYER_EXPECTED_HEADERS)) := by
      rw [hst2]
      exact tabGrid_append_rows_self _ _ _ _ hg1
    rw [List.map_cons, List.nodup_cons] at hnodup
    obtain ⟨hnotin, hnd'⟩ := hnodup
    have hfold : (p :: G').foldl runPlayerStep (st, n) =
        G'.foldl runPlayerStep
          ((processPlayerTab st p.1 p.2).1, n + (processPlayerTab st p.1 p.2).2) := by
      rw [List.foldl_cons, runPlayerStep_eq]
    have IH := ih (processPlayerTab st p.1 p.2).1 (n + (processPlayerTab st p.1 p.2).2)
      hnd' hgood2
    constructor
    · rw [hfold]; exact IH.1
    · intro q hq hstrip
      rcases List.mem_cons.mp hq with hq | hq
      · subst hq
        refine ⟨g1 ++ (acceptedList playerKey (playerKeysOf (readCD g1)) q.2).map
          (outputRow PLAYER_EXPECTED_HEADERS), ?_, ?_⟩
        · rw [hfold, foldPlayer_frame G' _ _ q.1 hnotin, hgridP]
        · intro r hr
          have hreadne : readCD g1 ≠ [] := by
            unfold readCD
            intro hc
            exact hg1ne (List.map_eq_nil_iff.mp hc)
          have hkeys2 : playerKeysOf (readCD (g1 ++
              (acceptedList playerKey (playerKeysOf (readCD g1)) q.2).map
                (outputRow PLAYER_EXPECTED_HEADERS))) =
              playerKeysOf (readCD g1) ++
                (acceptedList playerKey (playerKeysOf (readCD g1)) q.2).map playerKey := by
            rw [show readCD (g1 ++
                (acceptedList playerKey (playerKeysOf (readCD g1)) q.2).map
                  (outputRow PLAYER_EXPECTED_HEADERS)) =
                readCD g1 ++ readCD ((acceptedList playerKey
                  (playerKeysOf (readCD g1)) q.2).map (outputRow PLAYER_EXPECTED_HEADERS))
              from List.map_append _ _ _]
            rw [playerKeysOf_append _ _ hreadne]
            rw [playerKeys_of_outRows
              (acceptedList playerKey (playerKeysOf (readCD g1)) q.2)
              (fun x hx => hstrip x (acceptedList_subset playerKey q.2 _ x hx))]
          rw [hkeys2]
          rcases acceptedList_key_mem playerKey q.2 (playerKeysOf (readCD g1)) r hr with
            h | h
          · exact List.mem_append.mpr (Or.inl h)
          · exact List.mem_append.mpr (Or.inr h)
      · rw [hfold]
        exact IH.2 q hq hstrip

/-! ## Team pipeline lemmas (for claim C1) -/

theorem processTeamTab_eq (st : Store) (rows : List Row) :
    processTeamTab st rows =
      (append_rows (ensureTab st TARGET_TAB TEAM_EXPECTED_HEADERS) TARGET_TAB
        ((acceptedList teamKey
          (teamKeysOf
            (readColA (gridAt (ensureTab st TARGET_TAB TEAM_EXPECTED_HEADERS) TARGET_TAB))
            (readColE (gridAt (ensureTab st TARGET_TAB TEAM_EXPECTED_HEADERS) TARGET_TAB)))
          rows).map (outputRow TEAM_EXPECTED_HEADERS)),
      ((acceptedList teamKey
          (teamKeysOf
            (readColA (gridAt (ensureTab st TARGET_TAB TEAM_EXPECTED_HEADERS) TARGET_TAB))
            (readColE (gridAt (ensureTab st TARGET_TAB TEAM_EXPECTED_HEADERS) TARGET_TAB)))
          rows).map (outputRow TEAM_EXPECTED_HEADERS)).length) := by
  unfold processTeamTab
  dsimp only
  rw [dedupRows_fst]

theorem teamKeysOf_append_out (g1 : Grid) (l : List Row) (hne : g1 ≠ [])
    (h : ∀ r ∈ l, rget r "gameId" ≠ "" ∧ rget r "teamId" ≠ "" ∧
      pstrip (rget r "gameId") = rget r "gameId" ∧
      pstrip (rget r "teamId") = rget r "teamId") :
    teamKeysOf (readColA (g1 ++ l.map (outputRow TEAM_EXPECTED_HEADERS)))
        (readColE (g1 ++ l.map (outputRow TEAM_EXPECTED_HEADERS))) =
      teamKeysOf (readColA g1) (readColE g1) ++ l.map teamKey := by
  have hA : readColA g1 ≠ [] := by
    unfold readColA
    intro hc
    exact hne (List.map_eq_nil_iff.mp hc)
  have hE : readColE g1 ≠ [] := by
    unfold readColE
    intro hc
    exact hne (List.map_eq_nil_iff.mp hc)
  unfold teamKeysOf
  rw [show readColA (g1 ++ l.map (outputRow TEAM_EXPECTED_HEADERS)) =
      readColA g1 ++ readColA (l.map (outputRow TEAM_EXPECTED_HEADERS))
    from List.map_append _ _ _]
  rw [show readColE (g1 ++ l.map (outputRow TEAM_EXPECTED_HEADERS)) =
      readColE g1 ++ readColE (l.map (outputRow TEAM_EXPECTED_HEADERS))
    from List.map_append _ _ _]
  rw [drop_one_append _ _ hA, drop_one_append _ _ hE]
  rw [teamKeysLoop_append _ _ _ _ (by
    simp [readColA, readColE])]
  rw [teamKeys_of_outRows l h]

/-! ## Grouping key lemmas (for claim C1) -/

theorem assocAppend_keys :
    ∀ (acc : List (String × List Row)) (k : String) (r : Row),
      (assocAppend acc k r).map Prod.fst =
        if k ∈ acc.map Prod.fst then acc.map Prod.fst
        else acc.map Prod.fst ++ [k] := by
  intro acc
  induction acc with
  | nil => intro k r; simp [assocAppend]
  | cons e rest ih =>
    intro k r
    by_cases he : e.1 = k
    · rw [show assocAppend (e :: rest) k r = (e.1, e.2 ++ [r]) :: rest by
        rw [assocAppend]; simp [he]]
      rw [List.map_cons, List.map_cons,
        if_pos (List.mem_cons.mpr (Or.inl he.symm))]
    · rw [show assocAppend (e :: rest) k r = (e.1, e.2) :: assocAppend rest k r by
        rw [assocAppend]; simp [he]]
      rw [List.map_cons, ih, List.map_cons]
      by_cases hk : k ∈ rest.map Prod.fst
      · rw [if_pos hk, if_pos (List.mem_cons_of_mem _ hk)]
      · rw [if_neg hk, if_neg (by
          rw [List.mem_cons]
          rintro (hc | hc)
          · exact he hc.symm
          · exact hk hc)]
        rfl

theorem nodup_assocAppend (acc : List (String × List Row)) (k : String) (r : Row)
    (h : (acc.map Prod.fst).Nodup) : ((assocAppend acc k r).map Prod.fst).Nodup := by
  rw [assocAppend_keys]
  by_cases hk : k ∈ acc.map Prod.fst
  · rw [if_pos hk]; exact h
  · rw [if_neg hk]
    exact h.append (List.nodup_singleton k) (List.disjoint_singleton.mpr hk)

theorem nodup_groupStep (acc : List (String × List Row)) (r : Row)
    (h : (acc.map Prod.fst).Nodup) : ((groupStep acc r).map Prod.fst).Nodup := by
  unfold groupStep
  rcases hd : parse_date (rget r "gameDateTimeEst") with _ | dt
  · exact h
  · dsimp only
    rcases ht : playerTabFor dt with _ | tab
    · exact h
    · exact nodup_assocAppend acc tab r h

theorem groupPlayer_nodup :
    ∀ (rows : List Row) (acc : List (String × List Row)),
      (acc.map Prod.fst).Nodup → ((rows.foldl groupStep acc).map Prod.fst).Nodup := by
  intro rows
  induction rows with
  | nil => intro acc h; exact h
  | cons x xs ih =>
    intro acc h
    rw [List.foldl_cons]
    exact ih (groupStep acc x) (nodup_groupStep acc x h)

theorem groupFold_mem_src :
    ∀ (rows : List Row) (acc : List (String × List Row)) (p : String × List Row) (r : Row),
      p ∈ rows.foldl groupStep acc → r ∈ p.2 →
      (∃ q ∈ acc, r ∈ q.2) ∨ r ∈ rows := by
  intro rows
  induction rows with
  | nil => intro acc p r hp hr; exact Or.inl ⟨p, hp, hr⟩
  | cons x xs ih =>
    intro acc p r hp hr
    rw [List.foldl_cons] at hp
    rcases ih (groupStep acc x) p r hp hr with ⟨q, hq, hrq⟩ | h
    · rcases groupStep_mem_inv acc x q r hq hrq with ⟨q', hq', hrq'⟩ | h
      · exact Or.inl ⟨q', hq', hrq'⟩
      · exact Or.inr (by rw [h]; exact List.mem_cons_self _ _)
    · exact Or.inr (List.mem_cons_of_mem _ h)

/-! ## Claim C1: pipeline idempotence (corrected) -/

/-- **C1** counterexample: a source row whose `personId` field carries
leading whitespace (`" 100"`) defeats idempotence — the dedup key is
built from the stripped field but the stored cell keeps the raw value,
so the second run over the same source and cutoff appends the row
again (1 row instead of 0). -/
theorem claim_C1_counterexample :
    (runPlayer 0
      [[("gameDateTimeEst", "2025-11-15"), ("personId", " 100"), ("gameId", "1")]]
      (runPlayer 0
        [[("gameDateTimeEst", "2025-11-15"), ("personId", " 100"), ("gameId", "1")]]
        []).1).2 = 1 := by decide

/-- **C1** (amended): the second run over the same source data and
cutoff appends zero rows and leaves the store unchanged, provided the
key fields round-trip through the store: in the player pipeline the
`personId`/`gameId` fields carry no surrounding whitespace, and in the
team pipeline the `teamId`/`gameId` fields are additionally non-empty;
tabs already present in the store are non-empty (they hold at least
their header row, as the writer guarantees). -/
theorem claim_C1 :
    (∀ (cutoff : Int) (src : List Row) (st0 : Store),
      (∀ r ∈ src, pstrip (rget r "personId") = rget r "personId" ∧
        pstrip (rget r "gameId") = rget r "gameId") →
      goodStore st0 →
      runPlayer cutoff src (runPlayer cutoff src st0).1 =
        ((runPlayer cutoff src st0).1, 0))
    ∧ (∀ (cutoff : Int) (src : List Row) (st0 : Store),
      (∀ r ∈ src, rget r "gameId" ≠ "" ∧ rget r "teamId" ≠ "" ∧
        pstrip (rget r "gameId") = rget r "gameId" ∧
        pstrip (rget r "teamId") = rget r "teamId") →
      goodStore st0 →
      runTeam cutoff src (runTeam cutoff src st0).1 =
        ((runTeam cutoff src st0).1, 0)) := by
  constructor
  · intro cutoff src st0 hstrip hgood
    by_cases hr : src.filter (keepRecent cutoff) = []
    · have h0 : runPlayer cutoff src st0 = (st0, 0) := by
        unfold runPlayer
        rw [if_pos hr]
      rw [h0]
      exact h0
    · have h1 : runPlayer cutoff src st0 =
          (groupPlayer (src.filter (keepRecent cutoff))).foldl runPlayerStep (st0, 0) := by
        unfold runPlayer
        rw [if_neg hr]
      have hnd : ((groupPlayer (src.filter (keepRecent cutoff))).map Prod.fst).Nodup :=
        groupPlayer_nodup _ [] (by simp)
      have hEst := foldPlayer_establishes (groupPlayer (src.filter (keepRecent cutoff)))
        st0 0 hnd hgood
      have hz : ∀ p ∈ groupPlayer (src.filter (keepRecent cutoff)),
          ∃ g, tabGrid ((groupPlayer (src.filter (keepRecent cutoff))).foldl
            runPlayerStep (st0, 0)).1 p.1 = some g ∧
            ∀ r ∈ p.2, playerKey r ∈ playerKeysOf (readCD g) := by
        intro p hp
        refine hEst.2 p hp ?_
        intro r hrp
        have hrrec : r ∈ src.filter (keepRecent cutoff) := by
          rcases groupFold_mem_src (src.filter (keepRecent cutoff)) [] p r hp hrp with
            ⟨q, hq, _⟩ | h
          · cases hq
          · exact h
        exact hstrip r (List.mem_of_mem_filter hrrec)
      rw [h1]
      show runPlayer cutoff src _ = _
      unfold runPlayer
      rw [if_neg hr]
      exact foldPlayer_zero _ _ 0 hz
  · intro cutoff src st0 hids hgood
    by_cases hr : src.filter (keepRecentTeam cutoff) = []
    · have h0 : runTeam cutoff src st0 = (st0, 0) := by
        unfold runTeam
        rw [if_pos hr]
      rw [h0]
      exact h0
    · obtain ⟨g1, hg1, hcase⟩ := tabGrid_ensureTab_self st0 TARGET_TAB TEAM_EXPECTED_HEADERS
      have hg1ne : g1 ≠ [] := by
        rcases hcase with hc | hc
        · exact hgood TARGET_TAB g1 hc
        · rw [hc]; simp
      have hrecids : ∀ r ∈ src.filter (keepRecentTeam cutoff),
          rget r "gameId" ≠ "" ∧ rget r "teamId" ≠ "" ∧
          pstrip (rget r "gameId") = rget r "gameId" ∧
          pstrip (rget r "teamId") = rget r "teamId" :=
        fun r hrrec => hids r (List.mem_of_mem_filter hrrec)
      have h1 : runTeam cutoff src st0 =
          processTeamTab st0 (src.filter (keepRecentTeam cutoff)) := by
        unfold runTeam
        rw [if_neg hr]
      have hst1 : (processTeamTab st0 (src.filter (keepRecentTeam cutoff))).1 =
          append_rows (ensureTab st0 TARGET_TAB TEAM_EXPECTED_HEADERS) TARGET_TAB
            ((acceptedList teamKey (teamKeysOf (readColA g1) (readColE g1))
              (src.filter (keepRecentTeam cutoff))).map (outputRow TEAM_EXPECTED_HEADERS)) := by
        rw [processTeamTab_eq]
        dsimp only
        rw [show gridAt (ensureTab st0 TARGET_TAB TEAM_EXPECTED_HEADERS) TARGET_TAB = g1 by
          unfold gridAt; rw [hg1]; rfl]
      have hgrid1 : tabGrid (processTeamTab st0 (src.filter (keepRecentTeam cutoff))).1
          TARGET_TAB = some (g1 ++
            ((acceptedList teamKey (teamKeysOf (readColA g1) (readColE g1))
              (src.filter (keepRecentTeam cutoff))).map (outputRow TEAM_EXPECTED_HEADERS))) := by
        rw [hst1]
        exact tabGrid_append_rows_self _ _ _ _ hg1
      rw [h1]
      unfold runTeam
      rw [if_neg hr]
      rw [processTeamTab_eq]
      rw [ensureTab_eq_of_some _ TARGET_TAB TEAM_EXPECTED_HEADERS _ hgrid1]
      rw [show gridAt (processTeamTab st0 (src.filter (keepRecentTeam cutoff))).1
          TARGET_TAB = g1 ++
            ((acceptedList teamKey (teamKeysOf (readColA g1) (readColE g1))
              (src.filter (keepRecentTeam cutoff))).map (outputRow TEAM_EXPECTED_HEADERS)) by
        unfold gridAt; rw [hgrid1]; rfl]
      rw [teamKeysOf_append_out g1 _ hg1ne (fun x hx =>
        hrecids x (acceptedList_subset teamKey _ _ x hx))]
      rw [acceptedList_nil teamKey (src.filter (keepRecentTeam cutoff)) _ (by
        intro r hrrec
        rcases acceptedList_key_mem teamKey (src.filter (keepRecentTeam cutoff))
          (teamKeysOf (readColA g1) (readColE g1)) r hrrec with h | h
        · exact List.mem_append.mpr (Or.inl h)
        · exact List.mem_append.mpr (Or.inr h))]
      simp [append_rows, hst1]

theorem claim_C1_witness :
    runPlayer 0
      [[("gameDateTimeEst", "2025-11-15"), ("personId", "100"), ("gameId", "1")]]
      (runPlayer 0
        [[("gameDateTimeEst", "2025-11-15"), ("personId", "100"), ("gameId", "1")]]
        []).1 =
      ((runPlayer 0
        [[("gameDateTimeEst", "2025-11-15"), ("personId", "100"), ("gameId", "1")]]
        []).1, 0) :=
  claim_C1.1 0
    [[("gameDateTimeEst", "2025-11-15"), ("personId", "100"), ("gameId", "1")]]
    [] (by decide) (fun _ _ h => Option.noConfusion h)

/-! ## Format interpreter lemmas (for claim C10) -/

theorem runToks_append :
    ∀ (ts ts' : List Tok) (st : PState),
      runToks (ts ++ ts') st = (runToks ts st).bind (runToks ts') := by
  intro ts
  induction ts with
  | nil => intro ts' st; rfl
  | cons t rest ih =>
    intro ts' st
    show runToks (t :: (rest ++ ts')) st = _
    rw [runToks]
    cases h : runTok st t with
    | none => rw [runToks, h]; rfl
    | some st2 => rw [runToks, h]; exact ih ts' st2

theorem runTok_tz (t : Tok) (st st' : PState) (ht : t ≠ .dz)
    (h : runTok st t = some st') : st'.tz = st.tz := by
  cases t with
  | lit c =>
    rw [runTok] at h
    cases hr : st.rest with
    | nil => rw [hr] at h; cases h
    | cons x xs =>
      rw [hr] at h
      dsimp only at h
      by_cases hl : lowerC x = lowerC c
      · rw [if_pos hl] at h
        cases h; rfl
      · rw [if_neg hl] at h; cases h
  | ws =>
    rw [runTok] at h
    cases hr : st.rest with
    | nil => rw [hr] at h; cases h
    | cons x xs =>
      rw [hr] at h
      dsimp only at h
      by_cases hl : isPyWs x = true
      · rw [if_pos hl] at h
        cases h; rfl
      · rw [if_neg hl] at h; cases h
  | dY =>
    rw [runTok] at h
    rcases Option.map_eq_some'.mp h with ⟨p, _, rfl⟩; rfl
  | dm =>
    rw [runTok] at h
    rcases Option.map_eq_some'.mp h with ⟨p, _, rfl⟩; rfl
  | dd =>
    rw [runTok] at h
    rcases Option.map_eq_some'.mp h with ⟨p, _, rfl⟩; rfl
  | dH =>
    rw [runTok] at h
    rcases Option.map_eq_some'.mp h with ⟨p, _, rfl⟩; rfl
  | dI =>
    rw [runTok] at h
    rcases Option.map_eq_some'.mp h with ⟨p, _, rfl⟩; rfl
  | dM =>
    rw [runTok] at h
    rcases Option.map_eq_some'.mp h with ⟨p, _, rfl⟩; rfl
  | dS =>
    rw [runTok] at h
    rcases Option.map_eq_some'.mp h with ⟨p, _, rfl⟩; rfl
  | dz => exact absurd rfl ht
  | dp =>
    rw [runTok] at h
    rcases Option.map_eq_some'.mp h with ⟨p, _, rfl⟩; rfl

theorem runToks_tz :
    ∀ (ts : List Tok) (st st' : PState), Tok.dz ∉ ts →
      runToks ts st = some st' → st'.tz = st.tz := by
  intro ts
  induction ts with
  | nil =>
    intro st st' _ h
    cases h; rfl
  | cons t rest ih =>
    intro st st' hnz h
    rw [runToks] at h
    cases hr : runTok st t with
    | none => rw [hr] at h; cases h
    | some st2 =>
      rw [hr] at h
      have h2 := ih st2 st' (fun hm => hnz (List.mem_cons_of_mem _ hm)) h
      have h1 := runTok_tz t st st2 (fun he => hnz (he ▸ List.mem_cons_self _ _)) hr
      exact h2.trans h1

theorem strptime_inv (toks : List Tok) (s : List Char) (dt : PyDateTime)
    (h : strptime toks s = some dt) :
    ∃ st', runToks toks (initState s) = some st' ∧ st'.rest = [] ∧
      mkDateTime st' = some dt := by
  unfold strptime at h
  cases hr : runToks toks (initState s) with
  | none => rw [hr] at h; cases h
  | some st' =>
    rw [hr] at h
    dsimp only at h
    by_cases he : st'.rest = []
    · rw [if_pos he] at h
      exact ⟨st', rfl, he, h⟩
    · rw [if_neg he] at h; cases h

theorem mkDateTime_tz (st : PState) (dt : PyDateTime)
    (h : mkDateTime st = some dt) : dt.tz = st.tz := by
  unfold mkDateTime at h
  dsimp only at h
  split_ifs at h
  all_goals cases h
  all_goals rfl

theorem runToks_single (t : Tok) (m : PState) : runToks [t] m = runTok m t := by
  cases h : runTok m t <;> simp [runToks, h]

theorem runToks_cons_none (t : Tok) (ts : List Tok) (m : PState)
    (h : runTok m t = none) : runToks (t :: ts) m = none := by
  simp [runToks, h]

theorem tryFormatsGo_cons_none (f : List Tok) (fs : List (List Tok)) (s : List Char)
    (h : strptime f s = none) : tryFormatsGo (f :: fs) s = tryFormatsGo fs s := by
  simp [tryFormatsGo, h]

theorem tryFormatsGo_cons_some (f : List Tok) (fs : List (List Tok)) (s : List Char)
    (dt : PyDateTime) (h : strptime f s = some dt) : tryFormatsGo (f :: fs) s = some dt := by
  simp [tryFormatsGo, h]

theorem not_ws_of_lowerC_t (y : Char) (h : lowerC y = 't') : isPyWs y = false := by
  cases hws : isPyWs y
  · rfl
  · exfalso
    have hy : ((((y = ' ' ∨ y = '\t') ∨ y = '\n') ∨ y = '\r') ∨
        y = Char.ofNat 11) ∨ y = Char.ofNat 12 := by
      simpa [isPyWs, Bool.or_eq_true, decide_eq_true_eq] using hws
    rcases hy with ((((rfl | rfl) | rfl) | rfl) | rfl) | rfl <;> exact absurd h (by decide)

/-! ## Claim C10: trailing-Z strings get UTC-5, not UTC -/

/-- **C10**: any string matched by the third format
`"%Y-%m-%dT%H:%M:%SZ"` — whose trailing `Z` is a literal, not a
timezone directive — parses as a naive value (no collected offset) and
is therefore returned by `parse_date` with the fixed UTC-5 offset, not
with the UTC offset the `Z` suffix would suggest.  (The earlier two
formats necessarily fail on such a string: the first leaves the `Z`
unconsumed and the second requires whitespace where the `T` sits.) -/
theorem claim_C10 :
    ∀ (s : String) (dt : PyDateTime),
      strptime fmt3 (pstripL s.data) = some dt →
      dt.tz = none ∧ parse_date s = some { dt with tz := some ET_OFFSET } := by
  intro s dt h
  have hs : ¬s = "" := by
    intro hs
    subst hs
    have hn : strptime fmt3 (pstripL ("" : String).data) = none := by decide
    rw [hn] at h
    cases h
  obtain ⟨st', hrun, hrest, hmk⟩ := strptime_inv fmt3 (pstripL s.data) dt h
  -- the run of fmt3 splits as fmt1 followed by the literal Z
  have hdecomp : runToks fmt3 (initState (pstripL s.data)) =
      (runToks fmt1 (initState (pstripL s.data))).bind (runToks [Tok.lit 'Z']) :=
    runToks_append fmt1 [Tok.lit 'Z'] (initState (pstripL s.data))
  rw [hrun] at hdecomp
  cases hmid : runToks fmt1 (initState (pstripL s.data)) with
  | none => rw [hmid] at hdecomp; cases hdecomp
  | some mid =>
    rw [hmid] at hdecomp
    -- hdecomp : some st' = runToks [.lit Z] mid
    have hlitZ : runTok mid (Tok.lit 'Z') = some st' := by
      dsimp only [Option.bind] at hdecomp
      rw [runToks_single] at hdecomp
      exact hdecomp.symm
    -- mid's remaining input is exactly the one Z character
    have hmidrest : ∃ x, mid.rest = [x] := by
      rw [runTok] at hlitZ
      cases hr : mid.rest with
      | nil => rw [hr] at hlitZ; cases hlitZ
      | cons x xs =>
        rw [hr] at hlitZ
        dsimp only at hlitZ
        by_cases hl : lowerC x = lowerC 'Z'
        · rw [if_pos hl] at hlitZ
          have hst' : st' = { mid with rest := xs } :=
            ((Option.some.injEq _ _).mp hlitZ).symm
          have hxs : xs = [] := by
            rw [hst'] at hrest
            exact hrest
          exact ⟨x, by rw [hxs]⟩
        · rw [if_neg hl] at hlitZ; cases hlitZ
    obtain ⟨x, hx⟩ := hmidrest
    -- format 1 fails: the Z is left unconsumed
    have hfmt1 : strptime fmt1 (pstripL s.data) = none := by
      unfold strptime
      rw [hmid]
      dsimp only
      rw [if_neg (by rw [hx]; exact List.cons_ne_nil x [])]
    -- after the date part the next character is the T, so format 2's
    -- whitespace class fails there
    have hdec1 : runToks fmt1 (initState (pstripL s.data)) =
        (runToks dateToks (initState (pstripL s.data))).bind
          (runToks (Tok.lit 'T' :: timeToks)) :=
      runToks_append dateToks (Tok.lit 'T' :: timeToks) (initState (pstripL s.data))
    rw [hmid] at hdec1
    cases hm1 : runToks dateToks (initState (pstripL s.data)) with
    | none => rw [hm1] at hdec1; cases hdec1
    | some m1 =>
      rw [hm1] at hdec1
      -- hdec1 : some mid = runToks (.lit T :: timeToks) m1
      have hTchar : ∃ y ys, m1.rest = y :: ys ∧ lowerC y = 't' := by
        cases hT : runTok m1 (Tok.lit 'T') with
        | none =>
          dsimp only [Option.bind] at hdec1
          rw [runToks_cons_none _ _ _ hT] at hdec1
          exact Option.noConfusion hdec1
        | some m2 =>
          rw [runTok] at hT
          cases hr : m1.rest with
          | nil => rw [hr] at hT; cases hT
          | cons y ys =>
            rw [hr] at hT
            dsimp only at hT
            by_cases hl : lowerC y = lowerC 'T'
            · exact ⟨y, ys, rfl, hl.trans (by decide)⟩
            · rw [if_neg hl] at hT; cases hT
      obtain ⟨y, ys, hyrest, hylow⟩ := hTchar
      have hwsfail : runTok m1 Tok.ws = none := by
        rw [runTok, hyrest]
        dsimp only
        rw [not_ws_of_lowerC_t y hylow]
        exact if_neg (by simp)
      have hfmt2 : strptime fmt2 (pstripL s.data) = none := by
        unfold strptime
        have hdec2 : runToks fmt2 (initState (pstripL s.data)) =
            (runToks dateToks (initState (pstripL s.data))).bind
              (runToks (Tok.ws :: timeToks)) :=
          runToks_append dateToks (Tok.ws :: timeToks) (initState (pstripL s.data))
        rw [hdec2, hm1]
        dsimp only [Option.bind]
        rw [runToks_cons_none _ _ _ hwsfail]
      -- the format list therefore selects fmt3, whose parse is naive
      have htry : tryFormats (pstripL s.data) = some dt := by
        unfold tryFormats
        rw [show FORMATS = [fmt1, fmt2, fmt3, fmt4, fmt5, fmt6, fmt7] from rfl]
        rw [tryFormatsGo_cons_none _ _ _ hfmt1, tryFormatsGo_cons_none _ _ _ hfmt2,
          tryFormatsGo_cons_some _ _ _ _ h]
      have htz : dt.tz = none := by
        have h1 := mkDateTime_tz st' dt hmk
        have h2 := runToks_tz fmt3 (initState (pstripL s.data)) st' (by decide) hrun
        rw [h1, h2]
        rfl
      refine ⟨htz, ?_⟩
      unfold parse_date
      rw [if_neg hs, htry]
      simp [htz]

theorem claim_C10_witness :
    (strptime fmt3 (pstripL ("2025-11-15T19:30:00Z" : String).data) =
      some ⟨2025, 11, 15, 19, 30, 0, none⟩)
    ∧ parse_date "2025-11-15T19:30:00Z" =
        some ⟨2025, 11, 15, 19, 30, 0, some (-18000)⟩ :=
  ⟨by decide,
    (claim_C10 "2025-11-15T19:30:00Z" ⟨2025, 11, 15, 19, 30, 0, none⟩ (by decide)).2⟩

end NbaImport

